import Mathlib

/-!
Verification of the FilesDSL repository (a sandboxed document-exploration DSL:
lexer/parser, tree-walking interpreter, path-sandboxed `Directory`/`File`
runtime, and a prepare-once/query-many semantic index).

This file gives a shallow embedding of the Python sources
(`filesdsl/interpreter.py`, `filesdsl/runtime.py`, `filesdsl/semantic.py`,
`filesdsl/execution_budget.py`, `filesdsl/errors.py`) and proves or refutes
the specification claims against it.

Modelling conventions:
* Host machine integers are `Int`; host floats are modelled as exact
  rationals `Rat` (every float appearing in a theorem below is a dyadic
  rational, where IEEE-754 arithmetic is exact).
* Filesystem state, symlink-resolution, the host regex engine and the
  document extractors are I/O facilities of the host; they enter the
  embedding as explicit parameters (`FileSystem`, `RegexEngine`, host
  extraction fields of `Ctx`), never as hidden state.
* Fallible code returns an explicit result type.  The interpreter is total
  on every terminating source program; the embedding threads an explicit
  recursion budget `fuel` and a `nofuel` outcome so that all definitions are
  structurally recursive and computable.
-/

namespace FilesDSL

/-! ## Result type

Python code signals failure by raising exceptions.  The embedding reifies
exceptions into the `.err` constructor; `.nofuel` marks an evaluation that
ran out of the explicit recursion budget (it never occurs for sufficient
fuel and corresponds to no behaviour of the source). -/

inductive EvalRes (ε : Type) (α : Type) where
  | ok (a : α)
  | err (e : ε)
  | nofuel
  deriving Repr

def EvalRes.bind : EvalRes ε α → (α → EvalRes ε β) → EvalRes ε β
  | .ok a, f => f a
  | .err e, _ => .err e
  | .nofuel, _ => .nofuel

instance : Monad (EvalRes ε) where
  pure := .ok
  bind := EvalRes.bind

/-- States that every error produced by a result satisfies `P`
(vacuously true for `.ok` and `.nofuel`). -/
def EvalRes.ErrSat (P : ε → Prop) : EvalRes ε α → Prop
  | .ok _ => True
  | .err e => P e
  | .nofuel => True

theorem EvalRes.ErrSat.bind {P : ε → Prop} {x : EvalRes ε α} {f : α → EvalRes ε β}
    (hx : x.ErrSat P) (hf : ∀ a, (f a).ErrSat P) : (x.bind f).ErrSat P := by
  cases x with
  | ok a => exact hf a
  | err e => exact hx
  | nofuel => trivial

theorem EvalRes.ErrSat.bindDo {P : ε → Prop} {x : EvalRes ε α} {f : α → EvalRes ε β}
    (hx : x.ErrSat P) (hf : ∀ a, (f a).ErrSat P) :
    (Bind.bind x f).ErrSat P :=
  EvalRes.ErrSat.bind hx hf

theorem EvalRes.ErrSat.ofEq {P : ε → Prop} {x y : EvalRes ε α}
    (h : y = x) (hx : x.ErrSat P) : y.ErrSat P := h ▸ hx

theorem EvalRes.errSat_err {P : ε → Prop} {x : EvalRes ε α} {e : ε}
    (hx : x.ErrSat P) (h : x = .err e) : P e := by
  subst h; exact hx

/-! ## Paths

Absolute, normalized filesystem paths are modelled as lists of components
(`Path("/tmp/box") = ["tmp", "box"]`, the root being `[]`).  `pathlib`'s
`is_relative_to` on resolved absolute paths is component-list prefix. -/

abbrev FPath := List String

/-- Embeds `PurePosixPath.as_posix` for an absolute path. -/
def renderPosix (p : FPath) : String :=
  "/" ++ String.intercalate ("/") p

/-- Embeds `os.path.relpath(target, base)` followed by `as_posix()` for two
absolute component lists (the POSIX case: no drives, so the `ValueError`
branch of `_render_relative_path` is unreachable). -/
def relPath (target base : FPath) : String :=
  let common := (List.zip target base).takeWhile (fun ab => ab.1 == ab.2) |>.length
  let ups : List String := List.replicate (base.length - common) ("..")
  let downs := target.drop common
  if ups ++ downs == [] then "." else String.intercalate ("/") (ups ++ downs)

/-! ## Python string primitives

Char-level embeddings of the `str` methods the source calls
(`strip`, `lower`, `split`, `startswith`), exact at the ASCII level. -/

/-- Embeds Python `str.strip()` (no-argument form). -/
def pyStrip (s : String) : String :=
  String.mk (((s.data.dropWhile Char.isWhitespace).reverse.dropWhile
    Char.isWhitespace).reverse)

/-- Embeds Python `str.lower()`. -/
def pyLower (s : String) : String := String.mk (s.data.map Char.toLower)

/-- Embeds Python `str.startswith(prefixStr)` (also `pathlib`'s
leading-slash test). -/
def pyStartsWith (s pre : String) : Bool := pre.data.isPrefixOf s.data

def splitCharAux (sep : Char) : List Char → List (List Char)
  | [] => [[]]
  | c :: t =>
    let r := splitCharAux sep t
    if c = sep then [] :: r
    else (c :: r.headD []) :: r.tail

/-- Splitting a posix-style string at every slash (`str.split("/")`). -/
def splitOnSlash (s : String) : List String :=
  (splitCharAux (Char.ofNat 47) s.data).map (fun l => String.mk l)

/-! ## Stable sorting

`list.sort` in CPython is a stable sort.  `pySortBy le` embeds it as a
stable insertion sort: an element is inserted before the first element `b`
with `le a b`; with `le a b := key a ≥ key b` this is exactly
`sort(key=…, reverse=True)` (stable descending), and with
`le a b := key a ≤ key b` it is `sort(key=…)` (stable ascending). -/

def pyInsert (le : α → α → Bool) (a : α) : List α → List α
  | [] => [a]
  | b :: t => if le a b then a :: b :: t else b :: pyInsert le a t

def pySortBy (le : α → α → Bool) : List α → List α
  | [] => []
  | a :: t => pyInsert le a (pySortBy le t)

theorem pyInsert_perm (le : α → α → Bool) (a : α) (l : List α) :
    (pyInsert le a l).Perm (a :: l) := by
  induction l with
  | nil => simp [pyInsert]
  | cons b t ih =>
    by_cases h : le a b = true
    · simp [pyInsert, h]
    · simp only [pyInsert, h, if_neg, Bool.false_eq_true, not_false_iff]
      exact ((ih.cons b).trans (List.Perm.swap a b t))

theorem pySortBy_perm (le : α → α → Bool) (l : List α) :
    (pySortBy le l).Perm l := by
  induction l with
  | nil => simp [pySortBy]
  | cons a t ih =>
    exact (pyInsert_perm le a (pySortBy le t)).trans (ih.cons a)

theorem mem_pyInsert {le : α → α → Bool} {a x : α} {l : List α}
    (h : x ∈ pyInsert le a l) : x = a ∨ x ∈ l := by
  rcases List.mem_cons.mp ((pyInsert_perm le a l).subset h) with h2 | h2
  · exact Or.inl h2
  · exact Or.inr h2

theorem pyInsert_pairwise {le : α → α → Bool}
    (htot : ∀ a b, le a b = false → le b a = true)
    (htrans : ∀ a b c, le a b = true → le b c = true → le a c = true)
    {a : α} {l : List α} (h : l.Pairwise (fun x y => le x y = true)) :
    (pyInsert le a l).Pairwise (fun x y => le x y = true) := by
  induction l with
  | nil => simp [pyInsert]
  | cons b t ih =>
    rcases List.pairwise_cons.mp h with ⟨hb, ht⟩
    by_cases hab : le a b = true
    · simp only [pyInsert, hab, if_true]
      refine List.pairwise_cons.mpr ⟨?_, h⟩
      intro c hc
      rcases List.mem_cons.mp hc with heq | hct
      · rw [heq]; exact hab
      · exact htrans a b c hab (hb c hct)
    · simp only [pyInsert, hab, if_false]
      refine List.pairwise_cons.mpr ⟨?_, ih ht⟩
      intro c hc
      rcases mem_pyInsert hc with heq | hct
      · rw [heq]; exact htot a b (Bool.not_eq_true _ |>.mp hab)
      · exact hb c hct

theorem pySortBy_sorted (le : α → α → Bool)
    (htot : ∀ a b, le a b = false → le b a = true)
    (htrans : ∀ a b c, le a b = true → le b c = true → le a c = true)
    (l : List α) :
    (pySortBy le l).Pairwise (fun x y => le x y = true) := by
  induction l with
  | nil => simp [pySortBy]
  | cons a t ih => exact pyInsert_pairwise htot htrans ih

theorem pairwise_filterMap_of_pairwise {R : α → α → Prop} {S : β → β → Prop}
    (f : α → Option β)
    (hf : ∀ a b x y, R a b → f a = some x → f b = some y → S x y)
    {l : List α} (h : l.Pairwise R) : (l.filterMap f).Pairwise S := by
  induction l with
  | nil => simp
  | cons a t ih =>
    rcases List.pairwise_cons.mp h with ⟨ha, ht⟩
    cases hfa : f a with
    | none => simpa [List.filterMap_cons, hfa] using ih ht
    | some x =>
      simp only [List.filterMap_cons, hfa]
      refine List.pairwise_cons.mpr ⟨?_, ih ht⟩
      intro y hy
      rcases List.mem_filterMap.mp hy with ⟨b, hbt, hfb⟩
      exact hf a b x y (ha b hbt) hfa hfb

/-! ## Stability of the descending sort

Python's `sort(key=score, reverse=True)` is stable: elements with equal
scores keep their original relative order.  When the input list is already
nondecreasing in its second component (the page number), the stable
descending sort by first component (the score) is therefore sorted for the
lexicographic order "score strictly greater, or score equal and page not
larger".  This is the ordering fact behind the semantic-search tie-break. -/

/-- Comparison used to embed `scored_pages.sort(key=lambda item: item[0],
reverse=True)`: `a` may sit before `b` exactly when `a`'s score is not
smaller. -/
def scoreGE (a b : ℚ × Int) : Bool := decide (b.1 ≤ a.1)

/-- Lexicographic target order for the sorted score/page list: strictly
greater score first, equal scores ordered by nondecreasing page. -/
def lexGE (a b : ℚ × Int) : Prop := b.1 < a.1 ∨ (a.1 = b.1 ∧ a.2 ≤ b.2)

theorem pyInsert_scoreGE_lex {a : ℚ × Int} {l : List (ℚ × Int)}
    (h : l.Pairwise lexGE) (hpage : ∀ c ∈ l, a.1 = c.1 → a.2 ≤ c.2) :
    (pyInsert scoreGE a l).Pairwise lexGE := by
  induction l with
  | nil => simp [pyInsert]
  | cons b t ih =>
    rcases List.pairwise_cons.mp h with ⟨hb, ht⟩
    by_cases hab : scoreGE a b = true
    · have hble : b.1 ≤ a.1 := by simpa [scoreGE] using hab
      simp only [pyInsert, hab, if_true]
      refine List.pairwise_cons.mpr ⟨?_, h⟩
      intro c hc
      rcases List.mem_cons.mp hc with hcb | hct
      · rw [hcb]
        rcases lt_or_eq_of_le hble with hlt | heq
        · exact Or.inl hlt
        · exact Or.inr ⟨heq.symm, hpage b (List.mem_cons_self b t) heq.symm⟩
      · rcases lt_or_eq_of_le hble with hlt | heq
        · rcases hb c hct with hc1 | ⟨hc1, _⟩
          · exact Or.inl (lt_trans hc1 hlt)
          · exact Or.inl (hc1 ▸ hlt)
        · rcases hb c hct with hc1 | ⟨hc1, _⟩
          · exact Or.inl (heq ▸ hc1)
          · exact Or.inr ⟨heq.symm.trans hc1, hpage c (List.mem_cons_of_mem b hct)
              (heq.symm.trans hc1)⟩
    · have hba : a.1 < b.1 := by
        have := Bool.not_eq_true (scoreGE a b) |>.mp hab
        simpa [scoreGE, not_le] using this
      simp only [pyInsert, hab, if_false]
      refine List.pairwise_cons.mpr ⟨?_, ih ht (fun c hc hsc =>
        hpage c (List.mem_cons_of_mem b hc) hsc)⟩
      intro c hc
      rcases mem_pyInsert hc with hca | hct
      · rw [hca]; exact Or.inl hba
      · exact hb c hct

theorem pySortBy_scoreGE_lex {l : List (ℚ × Int)}
    (h : l.Pairwise (fun x y => x.2 ≤ y.2)) :
    (pySortBy scoreGE l).Pairwise lexGE := by
  induction l with
  | nil => simp [pySortBy]
  | cons a t ih =>
    rcases List.pairwise_cons.mp h with ⟨ha, ht⟩
    refine pyInsert_scoreGE_lex (ih ht) ?_
    intro c hc _
    exact ha c ((pySortBy_perm scoreGE t).subset hc)

/-! ## First-occurrence deduplication (specification side of `read(pages)`). -/

def firstOccurrencesFrom (seen : List Int) : List Int → List Int
  | [] => []
  | p :: t =>
    if p ∈ seen then firstOccurrencesFrom seen t
    else p :: firstOccurrencesFrom (seen ++ [p]) t

/-- Keeps the first occurrence of every value of the list, in order. -/
def firstOccurrences (l : List Int) : List Int := firstOccurrencesFrom [] l

/-- Generic first-occurrence deduplication (used to model iteration over the
insertion-ordered keys of a Python `dict` and collection into a `set`). -/
def dedupKeepFirstFrom [BEq α] (seen : List α) : List α → List α
  | [] => []
  | p :: t =>
    if seen.contains p then dedupKeepFirstFrom seen t
    else p :: dedupKeepFirstFrom (seen ++ [p]) t

def dedupKeepFirst [BEq α] (l : List α) : List α := dedupKeepFirstFrom [] l

/-! ## Errors (`filesdsl/errors.py`)

`DSLRuntimeError(message, line?, column?, source_line?)` and its subclass
`DSLTimeoutError(message, elapsed_s, phase)` are the library's own failures;
`host` reifies a raw Python exception (`TypeError`, `ZeroDivisionError`, …)
that has not (yet) been converted by an interpreter `except` block. -/

/-- Single-quote character, used when assembling error messages. -/
def sq : String := "\u0027"

def quoted (s : String) : String := sq ++ s ++ sq

inductive HostExc where
  | typeErr (msg : String)
  | otherErr (msg : String)
  deriving Repr, DecidableEq

/-- Embeds Python's `str(exc)`. -/
def HostExc.msg : HostExc → String
  | .typeErr m => m
  | .otherErr m => m

inductive RunError where
  | dsl (message : String) (line : Option Nat) (column : Option Nat)
      (sourceLine : Option String)
  | timeout (message : String) (elapsedS : ℚ) (phase : String)
  | host (e : HostExc)
  deriving Repr, DecidableEq

/-- A `DSLRuntimeError` raised without a source location (as the runtime
objects and the semantic layer do). -/
def dslMsg (m : String) : RunError := .dsl m none none none

def RunError.isHost : RunError → Bool
  | .host _ => true
  | _ => false

def RunError.isTimeout : RunError → Bool
  | .timeout .. => true
  | _ => false

/-- Failure of an abstract host facility (document extractor, outline
reader…): either a `DSLRuntimeError` the library itself raised in that code,
or a raw host exception.  With no execution budget on these paths (the
interpreter never passes one), a `DSLTimeoutError` cannot arise there, which
the codomain records. -/
inductive HostFail where
  | dsl (msg : String)
  | typeErr (msg : String)
  | otherErr (msg : String)
  deriving Repr, DecidableEq

def HostFail.toRunError : HostFail → RunError
  | .dsl m => dslMsg m
  | .typeErr m => .host (.typeErr m)
  | .otherErr m => .host (.otherErr m)

theorem HostFail.toRunError_not_timeout (h : HostFail) :
    h.toRunError.isTimeout = false := by
  cases h <;> rfl

/-! ## Filesystem model

All I/O facts the embedded code consults.  Paths handed to the record
functions (`dbRecords`, `dbVectors`) are the parsed contents of the
corresponding JSON files; they are meaningful when the matching `isFile`
flag holds. -/

/-- Embeds one element of `records.json` (`semantic.py` builds these dicts in
`prepare_semantic_database`; `_load_record_indexes_cached` reads them back,
treating a non-integer `page` as absent for positions and as `0` for page
sorting). -/
structure SemRecord where
  relative_path : String
  file_name : String
  page : Option Int
  text : String
  deriving Repr, DecidableEq

structure FileSystem where
  /-- `Path.is_dir`. -/
  isDir : FPath → Bool
  /-- `Path.is_file`. -/
  isFile : FPath → Bool
  /-- `Path.exists`. -/
  pathExists : FPath → Bool
  /-- `Path.resolve`: symlink-free normalization of an absolute path. -/
  resolve : FPath → FPath
  /-- Files below a directory, recursively (`rglob("*")` filtered by
  `is_file`), unsorted. -/
  filesUnder : FPath → List FPath
  /-- Files directly below a directory (`glob("*")` filtered by `is_file`). -/
  filesDirectlyUnder : FPath → List FPath
  /-- Parsed content of `records.json` inside the given index directory. -/
  dbRecords : FPath → List SemRecord
  /-- Parsed content of `vectors.json` inside the given index directory. -/
  dbVectors : FPath → List (List ℚ)
  /-- Result of `DSLFile`'s format-dispatched extraction (`_read_pdf_pages`
  / `_read_docx_chunks` / `_read_pptx_chunks` / `_read_text_chunks`) for a
  file — host-library work, modelled as the value it produces or the
  failure it raises. -/
  chunksOnDisk : FPath → Except HostFail (List String)
  /-- Result of `semantic._extract_pages` for a file (same formats, the
  index-side extractors with their XML fallbacks). -/
  pagesForIndex : FPath → List String

/-! ## Semantic index (`filesdsl/semantic.py`) -/

def SEMANTIC_DB_DIRNAME : String := ".fdsl_faiss"
def SEMANTIC_INDEX_FILENAME : String := "pages.faiss"
def SEMANTIC_RECORDS_FILENAME : String := "records.json"
def SEMANTIC_VECTORS_FILENAME : String := "vectors.json"
def EMBEDDING_DIM : Nat := 256

/-- Embeds `Path.parent` of an absolute path (the parent of the root is the
root itself). -/
def pathParent (p : FPath) : FPath := p.dropLast

/-- Embeds `Path.parents` (all strict ancestors from the parent down to the
root), structurally recursive on a length budget so it computes by `rfl`. -/
def parentsAux : Nat → FPath → List FPath
  | 0, _ => []
  | _ + 1, [] => []
  | n + 1, p => p.dropLast :: parentsAux n p.dropLast

def parentsList (p : FPath) : List FPath := parentsAux p.length p

/-- Candidate list `[file_path, file_path.parent, *file_path.parents]` of
`_find_indexed_root`. -/
def candidatesFor (p : FPath) : List FPath := p :: pathParent p :: parentsList p

def firstIndexedCandidate (fs : FileSystem) : List FPath → Option FPath
  | [] => none
  | c :: rest =>
    if fs.isDir (c ++ [SEMANTIC_DB_DIRNAME]) then some c
    else firstIndexedCandidate fs rest

/-- Embeds `Path.relative_to(root).as_posix()` for `root` a component-prefix
of `p`. -/
def relTo (p root : FPath) : String :=
  let rest := p.drop root.length
  if rest.isEmpty then "." else String.intercalate ("/") rest

def noIndexMsg (rendered : String) : String :=
  "No semantic index found for " ++ rendered ++ ". Run " ++
    quoted ("uv run fdsl prepare <folder>") ++ " first."

def noCollectionMsg : String :=
  "No prepared semantic index collection found. Run " ++
    quoted ("uv run fdsl prepare <folder>") ++ " first."

/-- Embeds `_render_relative_path` (runtime.py and semantic.py share this
helper verbatim). -/
def renderRelativePath (fs : FileSystem) (path cwd : FPath) : String :=
  relPath (fs.resolve path) (fs.resolve cwd)

/-- Embeds `_find_indexed_root` (without the budget parameter: every caller
reachable from the interpreter passes `budget=None`, making each
`_check_budget` a no-op). -/
def findIndexedRoot (fs : FileSystem) (filePath : FPath) (displayRoot : FPath) :
    Except RunError FPath :=
  match firstIndexedCandidate fs (candidatesFor filePath) with
  | some c => .ok c
  | none =>
      .error (dslMsg (noIndexMsg (renderRelativePath fs filePath displayRoot)))

/-- Page list per relative path, sorted by (normalized) page number — first
component of `_load_record_indexes_cached`'s result, looked up at one key.
The Python code groups into a dict of lists in record order and sorts each
list; grouping-then-lookup equals filtering the records at that key. -/
def pagesFor (records : List SemRecord) (rel : String) : List (Int × String) :=
  pySortBy (fun a b => decide (a.1 ≤ b.1))
    (records.filterMap fun r =>
      if r.relative_path == rel then some (r.page.getD 0, r.text) else none)

/-- Vector-index/page list per relative path, restricted to integer pages
and sorted by page — second component of `_load_record_indexes_cached`'s
result, looked up at one key. -/
def positionsFor (records : List SemRecord) (rel : String) : List (Nat × Int) :=
  pySortBy (fun a b => decide (a.2 ≤ b.2))
    (records.enum.filterMap fun ir =>
      match ir.2.page with
      | some pg => if ir.2.relative_path == rel then some (ir.1, pg) else none
      | none => none)

/-! ### Embedding (`_encode_texts`)

`_encode_texts` hashes each `\w+` token of the lowercased text with
Python's built-in `hash`.  For `str`, `hash` is salted per interpreter
process (`PYTHONHASHSEED`); the embedding therefore takes the process's
string-hash function `pyHash` as an explicit parameter.  Word characters
and lowercasing are modelled at the ASCII level (exact for every input
appearing in a theorem below). -/

def isWordChar (c : Char) : Bool := c.isAlphanum || c == '_'

def wordTokensAux : List Char → List Char → List String
  | [], acc => if acc.isEmpty then [] else [String.mk acc.reverse]
  | c :: rest, acc =>
    if isWordChar c then wordTokensAux rest (c :: acc)
    else if acc.isEmpty then wordTokensAux rest []
    else String.mk acc.reverse :: wordTokensAux rest []

/-- Embeds `re.findall(r"\w+", s)`. -/
def wordTokens (s : String) : List String := wordTokensAux s.data []

/-- Embeds the `vec[hash(token) % EMBEDDING_DIM] += 1.0` update. -/
def bumpAt (v : List ℚ) (i : Nat) : List ℚ := v.set i (v.getD i 0 + 1)

def rawVec (pyHash : String → Nat) (text : String) : List ℚ :=
  (wordTokens (pyLower text)).foldl
    (fun v t => bumpAt v (pyHash t % EMBEDDING_DIM))
    (List.replicate EMBEDDING_DIM (0 : ℚ))

/-- Largest `k ≤ fuel` with `k * k ≤ n` (downward scan, structurally
recursive so concrete values kernel-reduce). -/
def natSqrtAux : Nat → Nat → Nat
  | 0, _ => 0
  | k + 1, n => if (k + 1) * (k + 1) ≤ n then k + 1 else natSqrtAux k n

/-- Integer square root (floor), by exhaustive downward scan from `n`. -/
def natSqrt (n : Nat) : Nat := natSqrtAux n n

/-- Computable model of `math.sqrt` on the exact rationals standing in for
floats: exact where the square root is rational (the only case any theorem
evaluates), a rational approximation elsewhere. -/
def ratSqrt (q : ℚ) : ℚ :=
  let a := q.num.toNat
  let b := q.den
  if (natSqrt a * natSqrt a == a) && (natSqrt b * natSqrt b == b) then
    (natSqrt a : ℚ) / (natSqrt b : ℚ)
  else
    (natSqrt (a * b) : ℚ) / (b : ℚ)

/-- Embeds `_encode_texts` (budget-free: see `findIndexedRoot`). -/
def encodeTexts (pyHash : String → Nat) (texts : List String) : List (List ℚ) :=
  texts.map fun text =>
    let vec := rawVec pyHash text
    let norm := ratSqrt (vec.foldl (fun s v => s + v * v) 0)
    if 0 < norm then vec.map (· / norm) else vec

/-- Embeds `_dot` (`zip` with `strict=False` truncates to the shorter). -/
def dotQ (a b : List ℚ) : ℚ :=
  ((List.zip a b).map fun xy => xy.1 * xy.2).sum

def loadVectors (fs : FileSystem) (dbPath : FPath) :
    Except RunError (List (List ℚ)) :=
  if fs.isFile (dbPath ++ [SEMANTIC_VECTORS_FILENAME]) then
    .ok (fs.dbVectors dbPath)
  else .error (dslMsg noCollectionMsg)

def loadRecordsList (fs : FileSystem) (dbPath : FPath) :
    Except RunError (List SemRecord) :=
  if fs.isFile (dbPath ++ [SEMANTIC_RECORDS_FILENAME]) then
    .ok (fs.dbRecords dbPath)
  else .error (dslMsg noCollectionMsg)

/-- The scored `(inner product, page)` pairs that `semantic_search_file_pages`
builds before sorting: one per position entry whose vector index is in range,
in position order (pages ascending). -/
def scoredPages (vectors : List (List ℚ)) (queryVec : List ℚ)
    (positions : List (Nat × Int)) : List (ℚ × Int) :=
  positions.filterMap fun vp =>
    if vp.1 < vectors.length then some (dotQ queryVec (vectors.getD vp.1 []), vp.2)
    else none

/-- Embeds `semantic_search_file_pages` (budget-free: see
`findIndexedRoot`). -/
def semanticSearchFilePages (fs : FileSystem) (pyHash : String → Nat)
    (filePath : FPath) (query : String) (topK : Int) (displayRoot : FPath) :
    Except RunError (List Int) :=
  if pyStrip query == "" then .error (dslMsg ("query must be a non-empty string"))
  else if topK < 1 then .error (dslMsg ("top_k must be a positive integer"))
  else do
    let resolved := fs.resolve filePath
    let root ← findIndexedRoot fs resolved displayRoot
    let rel := relTo resolved root
    let dbPath := root ++ [SEMANTIC_DB_DIRNAME]
    let vectors ← loadVectors fs dbPath
    let records ← loadRecordsList fs dbPath
    let queryVec := (encodeTexts pyHash [pyStrip query]).headD []
    let scored := scoredPages vectors queryVec (positionsFor records rel)
    let sorted := pySortBy scoreGE scored
    pure ((sorted.take topK.toNat).map (·.2))

/-- Embeds `get_file_pages_from_database` (budget-free; the
`except DSLRuntimeError: return None` around `_find_indexed_root` becomes
the `none` branch). -/
def getFilePagesFromDatabase (fs : FileSystem) (filePath : FPath)
    (displayRoot : FPath) : Option (List String) :=
  match findIndexedRoot fs (fs.resolve filePath) displayRoot with
  | .error _ => none
  | .ok root =>
    if fs.isFile (root ++ [SEMANTIC_DB_DIRNAME, SEMANTIC_RECORDS_FILENAME]) then
      let records := fs.dbRecords (root ++ [SEMANTIC_DB_DIRNAME])
      let pages := pagesFor records (relTo (fs.resolve filePath) root)
      if pages.isEmpty then none else some (pages.map (·.2))
    else none

/-- Embeds `Path(rel).parent.as_posix()` with the code's own `"." → ""`
normalization, for a posix-relative string. -/
def parentRel (rel : String) : String :=
  let parts := splitOnSlash rel
  if parts.length ≤ 1 then "" else String.intercalate ("/") parts.dropLast

def posixLE (a b : FPath) : Bool := decide (renderPosix a ≤ renderPosix b)

/-- Embeds `get_directory_file_paths_from_database` (budget-free).  Python
iterates the record dict's insertion-ordered keys, collects matches in a
`set`, and returns them sorted by `as_posix`. -/
def getDirectoryFilePathsFromDatabase (fs : FileSystem) (dirPath : FPath)
    (recursive : Bool) (displayRoot : FPath) : Option (List FPath) :=
  match findIndexedRoot fs (fs.resolve dirPath) displayRoot with
  | .error _ => none
  | .ok root =>
    if fs.isFile (root ++ [SEMANTIC_DB_DIRNAME, SEMANTIC_RECORDS_FILENAME]) then
      let records := fs.dbRecords (root ++ [SEMANTIC_DB_DIRNAME])
      let relDir :=
        let r := relTo (fs.resolve dirPath) root
        if r == "." then "" else r
      let keys := dedupKeepFirst (records.map (·.relative_path))
      let chosen := keys.filterMap fun rel =>
        if recursive then
          if relDir != "" && !(pyStartsWith rel (relDir ++ "/")) then none
          else some (root ++ splitOnSlash rel)
        else
          if parentRel rel == relDir then some (root ++ splitOnSlash rel)
          else none
      some (pySortBy posixLE (dedupKeepFirst chosen))
    else none

/-! ### Text normalization (`filesdsl/text_utils.py`)

Modelled at the ASCII level: NFKC is the identity on ASCII and the only
ASCII characters in general categories Cc/Cf are the C0 controls and
DEL. -/

def normalizeChar (c : Char) : Option Char :=
  if c = Char.ofNat 10 || c = Char.ofNat 9 then some c
  else if c.isWhitespace then some (Char.ofNat 32)
  else if c.val < 32 || c.val == 127 then none
  else some c

/-- Embeds the CRLF/CR to LF conversion (`replace("\r\n", "\n")` then
`replace("\r", "\n")`). -/
def crlfToLf : List Char → List Char
  | [] => []
  | c :: t =>
    if c = Char.ofNat 13 then
      Char.ofNat 10 ::
        (match t with
         | c2 :: t2 =>
           if c2 = Char.ofNat 10 then crlfToLf t2 else crlfToLf (c2 :: t2)
         | [] => [])
    else c :: crlfToLf t

def normalizeText (s : String) : String :=
  String.mk ((crlfToLf s.data).filterMap normalizeChar)

/-! ### Preparation (`prepare_semantic_database`, `_write_faiss_database`)

Disk writes are modelled as the list of `(path, content)` pairs the call
emits; `mkdir` of the index directory is implied by those paths. -/

structure PrepareStats where
  folder : FPath
  db_path : FPath
  indexed_files : Nat
  indexed_pages : Nat
  deriving Repr, DecidableEq

def jsonEscape (s : String) : String :=
  s.data.foldl
    (fun acc c =>
      if c = Char.ofNat 92 then acc ++ "\\\\"
      else if c = Char.ofNat 34 then acc ++ "\\\""
      else acc.push c)
    ("")

def renderRecordJson (r : SemRecord) : String :=
  "\x7b\"relative_path\": \"" ++ jsonEscape r.relative_path ++
    "\", \"file_name\": \"" ++ jsonEscape r.file_name ++
    "\", \"page\": " ++ (match r.page with | some p => toString p | none => "null") ++
    ", \"text\": \"" ++ jsonEscape r.text ++ "\"\x7d"

def renderRecordsJson (records : List SemRecord) : String :=
  "[" ++ String.intercalate (", ") (records.map renderRecordJson) ++ "]"

def renderVectorsJson (vectors : List (List ℚ)) : String :=
  "[" ++ String.intercalate (", ")
    (vectors.map fun v =>
      "[" ++ String.intercalate (", ") (v.map toString) ++ "]") ++ "]"

/-- Embeds `_write_faiss_database`: the three files written under the index
directory (records, vectors, and the marker file). -/
def writeFaissDatabase (pyHash : String → Nat) (dbPath : FPath)
    (records : List SemRecord) (embeddingInputs : List String) :
    List (FPath × String) :=
  [(dbPath ++ [SEMANTIC_RECORDS_FILENAME], renderRecordsJson records),
   (dbPath ++ [SEMANTIC_VECTORS_FILENAME],
     renderVectorsJson (encodeTexts pyHash embeddingInputs)),
   (dbPath ++ [SEMANTIC_INDEX_FILENAME], "faiss-index-placeholder")]

/-- Embeds `_iter_document_paths`: files under the target in sorted posix
order, skipping everything below the index directory. -/
def iterDocumentPaths (fs : FileSystem) (folder : FPath) : List FPath :=
  let dbPath := folder ++ [SEMANTIC_DB_DIRNAME]
  (pySortBy posixLE (fs.filesUnder folder)).filter
    (fun p => !(dbPath.isPrefixOf p && p != dbPath))

def fileNameOf (p : FPath) : String := p.getLastD ("")

/-- Records and embedding inputs built for one file's pages (the inner loop
of `prepare_semantic_database`, pages enumerated from 1). -/
def recordsForFile (rel fname : String) (pages : List String) :
    List (SemRecord × String) :=
  pages.enum.map fun ip =>
    let cleaned := pyStrip (normalizeText ip.2)
    (⟨rel, fname, some (Int.ofNat (ip.1 + 1)), cleaned⟩,
      if cleaned == "" then "File: " ++ rel else "File: " ++ rel ++ "\n" ++ cleaned)

/-- Embeds `prepare_semantic_database` (budget-free), returning the stats
and the emitted disk writes. -/
def prepareSemanticDatabase (fs : FileSystem) (pyHash : String → Nat)
    (folder : FPath) : Except RunError (PrepareStats × List (FPath × String)) :=
  let target := fs.resolve folder
  if !fs.pathExists target then
    .error (dslMsg ("Folder does not exist: " ++ renderPosix target))
  else if !fs.isDir target then
    .error (dslMsg ("Path is not a directory: " ++ renderPosix target))
  else
    let dbPath := target ++ [SEMANTIC_DB_DIRNAME]
    let files := iterDocumentPaths fs target
    let perFile := files.map fun f =>
      recordsForFile (relTo f target) (fileNameOf f) (fs.pagesForIndex f)
    let entries := perFile.flatten
    let records := entries.map (·.1)
    let inputs := entries.map (·.2)
    .ok (⟨target, dbPath, files.length, entries.length⟩,
      writeFaissDatabase pyHash dbPath records inputs)

/-! ## Execution budget (`filesdsl/execution_budget.py`)

`time.monotonic()` readings enter as explicit rational parameters. -/

structure ExecutionBudget where
  startMonotonic : ℚ
  deadlineMonotonic : Option ℚ
  deriving Repr, DecidableEq

/-- Embeds `ExecutionBudget.__init__` at construction time `nowMonotonic`
(the `TypeError` branch is unrepresentable in the typed embedding). -/
def ExecutionBudget.init (timeoutS : Option ℚ) (nowMonotonic : ℚ) :
    Except String ExecutionBudget :=
  match timeoutS with
  | none => .ok ⟨nowMonotonic, none⟩
  | some t =>
    if t < 0 then .error ("timeout_s must be greater than or equal to 0")
    else .ok ⟨nowMonotonic, some (nowMonotonic + t)⟩

/-- Message of the timeout failure.  The source formats the elapsed seconds
with three decimals (`f"{elapsed:.3f}"`); the decimal rendering of the exact
rational stands in for that cosmetic formatting. -/
def timeoutMessage (elapsed : ℚ) (phase : String) : String :=
  "Timed out after " ++ toString elapsed ++ "s in " ++ phase

/-- Embeds `ExecutionBudget.check` at polling time `now`. -/
def ExecutionBudget.check (b : ExecutionBudget) (now : ℚ) (phase : String) :
    Except RunError Unit :=
  match b.deadlineMonotonic with
  | none => .ok ()
  | some deadline =>
    if now ≤ deadline then .ok ()
    else
      .error (.timeout (timeoutMessage (now - b.startMonotonic) phase)
        (now - b.startMonotonic) phase)

/-! ## DSL runtime values

Runtime values the evaluator manipulates (`interpreter.py` §Evaluation and
`runtime.py`): Python ints, floats (arising from `/`), strings, booleans,
`None` (returned by `print`), lists, the two runtime objects, and the
callable built-ins/bound methods.  `dir`/`file` values carry the data the
Python objects hold (`path`, `recursive`, `display_root`); CPython compares
these objects by identity, which the embedding conflates with structural
equality of that data. -/

inductive FileMethod where
  | read | search | contains | head | tail | table | semanticSearch | snippets
  deriving Repr, DecidableEq

inductive DirMethod where
  | files | tree | search
  deriving Repr, DecidableEq

inductive BuiltinFn where
  /-- `Interpreter._builtin_directory`, seeded as `Directory`. -/
  | bDirectory
  /-- `Interpreter._builtin_print`, seeded as `print`. -/
  | bPrint
  /-- Python's `len`, seeded as `len`. -/
  | bLen
  /-- A bound `DSLFile` method. -/
  | fileM (m : FileMethod) (path : FPath) (displayRoot : FPath)
  /-- A bound `DSLDirectory` method. -/
  | dirM (m : DirMethod) (path : FPath) (recursive : Bool) (displayRoot : FPath)
  deriving Repr, DecidableEq

inductive Value where
  | int (n : Int)
  | float (q : ℚ)
  | str (s : String)
  | bool (b : Bool)
  | pynone
  | list (xs : List Value)
  | dir (path : FPath) (recursive : Bool) (displayRoot : FPath)
  | file (path : FPath) (displayRoot : FPath)
  | builtin (b : BuiltinFn)
  deriving Repr

/-- Embeds `isinstance(v, int)` (CPython's `bool` is a subclass of `int`)
together with the int value used in arithmetic contexts. -/
def asPyInt : Value → Option Int
  | .int n => some n
  | .bool b => some (if b then 1 else 0)
  | _ => none

/-- Numeric value (`int`, `bool` or `float`) as a rational, with a flag
marking whether the host value is a float. -/
def asNumQ : Value → Option (ℚ × Bool)
  | .int n => some ((n : ℚ), false)
  | .bool b => some (if b then (1 : ℚ) else 0, false)
  | .float q => some (q, true)
  | _ => none

/-- Embeds `type(v).__name__` for the value domain. -/
def typeName : Value → String
  | .int _ => "int"
  | .float _ => "float"
  | .str _ => "str"
  | .bool _ => "bool"
  | .pynone => "NoneType"
  | .list _ => "list"
  | .dir .. => "DSLDirectory"
  | .file .. => "DSLFile"
  | .builtin _ => "method"

/-! ## Document runtime (`filesdsl/runtime.py`) -/

/-- The host `re` module, abstracted: `compile` yields a matcher standing
for the truthiness of `compiled.search(text)`, or the message of the
`re.error` the pattern raises. -/
structure RegexEngine where
  compile : String → Bool → Except String (String → Bool)

/-- Host extraction facilities behind the `DSLFile.table`/`snippets` and
`DSLDirectory.tree` rendering paths.  Those methods are extraction- and
rendering-heavy host-library work not examined by any claim; the embedding
keeps their argument validation (which the source performs first) and
defers the rest to these hooks. -/
structure HostHooks where
  tableImpl : FPath → FPath → Int → Except HostFail String
  snippetsImpl : FPath → FPath → (String → Bool) → Int → Int → Except HostFail (List String)
  treeImpl : FPath → Bool → FPath → Int → Int → Except HostFail String

/-- Embeds `_compile_regex`. -/
def compileRegex (re : RegexEngine) (pattern : Value) (ignoreCase : Bool) :
    Except RunError (String → Bool) :=
  match pattern with
  | .str p =>
    match re.compile p ignoreCase with
    | .ok m => .ok m
    | .error e => .error (dslMsg ("Invalid regex pattern: " ++ e))
  | _ => .error (dslMsg ("Regex pattern must be a string"))

/-- Embeds `DSLDirectory._iter_file_paths`: database-backed enumeration if
an index covers the directory, otherwise a filesystem walk sorted by posix
path. -/
def iterFilePaths (fs : FileSystem) (path : FPath) (recursive : Bool)
    (displayRoot : FPath) : List FPath :=
  match getDirectoryFilePathsFromDatabase fs path recursive displayRoot with
  | some paths => paths
  | none =>
    pySortBy posixLE ((if recursive then fs.filesUnder else fs.filesDirectlyUnder) path)

/-- Embeds Python truthiness `bool(v)` over the value domain.
`DSLDirectory` defines `__len__`, so its truthiness is a nonzero file
count; `DSLFile` defines neither `__bool__` nor `__len__` and is always
truthy. -/
def isTruthy (fs : FileSystem) : Value → Bool
  | .int n => n != 0
  | .float q => q != 0
  | .str s => !s.isEmpty
  | .bool b => b
  | .pynone => false
  | .list xs => !xs.isEmpty
  | .dir p r droot => (iterFilePaths fs p r droot).length != 0
  | .file _ _ => true
  | .builtin _ => true

/-- Cosmetic stand-in for `repr(float)` (no theorem below renders a
float). -/
def floatStr (q : ℚ) : String := toString q

/-- Embeds `repr(s)` for a string: single quotes, double quotes when the
string contains a single quote but no double quote, with basic escapes. -/
def pyReprStr (s : String) : String :=
  let hasSq := s.data.contains (Char.ofNat 39)
  let hasDq := s.data.contains (Char.ofNat 34)
  let qc : Char := if hasSq && !hasDq then Char.ofNat 34 else Char.ofNat 39
  let body := s.data.foldl
    (fun acc c =>
      if c = Char.ofNat 92 then acc ++ "\\\\"
      else if c = qc then acc ++ "\\" ++ String.mk [qc]
      else if c = Char.ofNat 10 then acc ++ "\\n"
      else if c = Char.ofNat 13 then acc ++ "\\r"
      else if c = Char.ofNat 9 then acc ++ "\\t"
      else acc.push c)
    ("")
  String.mk [qc] ++ body ++ String.mk [qc]

mutual

/-- Embeds `str(v)`: what `print` writes for one argument.  `DSLFile` and
`DSLDirectory` define `__str__` as their display path; `str` of a list is
its `repr` (elements shown with `repr`). -/
def pyStr (fs : FileSystem) : Value → String
  | .int n => toString n
  | .float q => floatStr q
  | .str s => s
  | .bool b => if b then "True" else "False"
  | .pynone => "None"
  | .list xs => "[" ++ String.intercalate (", ") (pyReprList fs xs) ++ "]"
  | .dir p _ droot => renderRelativePath fs p droot
  | .file p droot => renderRelativePath fs p droot
  | .builtin _ => "<built-in>"

/-- Embeds `repr(v)`; `DSLFile`/`DSLDirectory` define `__repr__` as
`File('…')` / `Directory('…')`. -/
def pyRepr (fs : FileSystem) : Value → String
  | .int n => toString n
  | .float q => floatStr q
  | .str s => pyReprStr s
  | .bool b => if b then "True" else "False"
  | .pynone => "None"
  | .list xs => "[" ++ String.intercalate (", ") (pyReprList fs xs) ++ "]"
  | .dir p _ droot => "Directory(" ++ quoted (renderRelativePath fs p droot) ++ ")"
  | .file p droot => "File(" ++ quoted (renderRelativePath fs p droot) ++ ")"
  | .builtin _ => "<built-in>"

def pyReprList (fs : FileSystem) : List Value → List String
  | [] => []
  | v :: t => pyRepr fs v :: pyReprList fs t

end

/-- Embeds `DSLFile._chunks` (without the per-object cache, which is
observationally transparent): database pages if an index covers the file,
otherwise format-dispatched extraction, then `chunks or [""]`. -/
def fileChunks (fs : FileSystem) (path : FPath) (displayRoot : FPath) :
    Except RunError (List String) :=
  match getFilePagesFromDatabase fs path displayRoot with
  | some chunks => .ok (if chunks.isEmpty then [""] else chunks)
  | none =>
    match fs.chunksOnDisk path with
    | .ok chunks => .ok (if chunks.isEmpty then [""] else chunks)
    | .error h => .error h.toRunError

def pagesOutOfRangeMsg (fs : FileSystem) (v : Value) (fileName : String)
    (total : Nat) : String :=
  "Page " ++ pyStr fs v ++ " is out of range for " ++ fileName ++
    " (1.." ++ toString total ++ ")"

/-- The `for value in pages_values` loop of `DSLFile._normalize_pages`:
integer check, 1-based range check, then append-if-absent (keeping first
occurrences). -/
def normalizePagesLoop (fs : FileSystem) (fileName : String) (total : Nat) :
    List Value → List Int → Except RunError (List Int)
  | [], normalized => .ok normalized
  | v :: rest, normalized =>
    match asPyInt v with
    | none => .error (dslMsg ("pages list must contain only integers"))
    | some n =>
      if n < 1 || n > (total : Int) then
        .error (dslMsg (pagesOutOfRangeMsg fs v fileName total))
      else
        normalizePagesLoop fs fileName total rest
          (if normalized.contains n then normalized else normalized ++ [n])

/-- Embeds `DSLFile._normalize_pages`. -/
def normalizePages (fs : FileSystem) (fileName : String) (pages : Value)
    (total : Nat) : Except RunError (List Int) :=
  match pages with
  | .int n => normalizePagesLoop fs fileName total [.int n] []
  | .bool b => normalizePagesLoop fs fileName total [.bool b] []
  | .list xs => normalizePagesLoop fs fileName total xs []
  | _ => .error (dslMsg ("pages must be an integer or a list of integers"))

/-- Embeds `DSLFile.read`. -/
def dslFileRead (fs : FileSystem) (path : FPath) (displayRoot : FPath)
    (pages : Value) : Except RunError Value := do
  let chunks ← fileChunks fs path displayRoot
  match pages with
  | .pynone => .ok (.str (String.intercalate ("\n\n") chunks))
  | _ => do
    let selected ← normalizePages fs (fileNameOf path) pages chunks.length
    .ok (.list (selected.map fun idx => .str (chunks.getD (idx - 1).toNat (""))))

/-- Embeds `DSLFile.search` (1-based page numbers whose chunk matches). -/
def dslFileSearch (fs : FileSystem) (re : RegexEngine) (path : FPath)
    (displayRoot : FPath) (pattern : Value) (ignoreCase : Bool) :
    Except RunError (List Int) := do
  let matcher ← compileRegex re pattern ignoreCase
  let chunks ← fileChunks fs path displayRoot
  .ok (chunks.enum.filterMap fun ic =>
    if matcher ic.2 then some ((ic.1 : Int) + 1) else none)

/-- Embeds `DSLFile.contains`. -/
def dslFileContains (fs : FileSystem) (re : RegexEngine) (path : FPath)
    (displayRoot : FPath) (pattern : Value) (ignoreCase : Bool) :
    Except RunError Bool := do
  let found ← dslFileSearch fs re path displayRoot pattern ignoreCase
  .ok (!found.isEmpty)

/-- Embeds `DSLFile.head`. -/
def dslFileHead (fs : FileSystem) (path : FPath) (displayRoot : FPath) :
    Except RunError Value := do
  let chunks ← fileChunks fs path displayRoot
  .ok (.str (chunks.headD ("")))

/-- Embeds `DSLFile.tail`. -/
def dslFileTail (fs : FileSystem) (path : FPath) (displayRoot : FPath) :
    Except RunError Value := do
  let chunks ← fileChunks fs path displayRoot
  .ok (.str (chunks.getLastD ("")))

/-- Embeds `DSLFile.table`: argument validation, then the host outline
work behind `HostHooks.tableImpl`. -/
def dslFileTable (fs : FileSystem) (hooks : HostHooks) (path : FPath)
    (displayRoot : FPath) (maxItems : Value) : Except RunError Value :=
  match asPyInt maxItems with
  | some n =>
    if n < 1 then .error (dslMsg ("max_items must be a positive integer"))
    else
      match hooks.tableImpl path displayRoot n with
      | .ok s => .ok (.str s)
      | .error h => .error h.toRunError
  | none => .error (dslMsg ("max_items must be a positive integer"))

/-- Embeds `DSLFile.snippets`: argument validation and regex compilation,
then the host excerpt work behind `HostHooks.snippetsImpl`. -/
def dslFileSnippets (fs : FileSystem) (re : RegexEngine) (hooks : HostHooks)
    (path : FPath) (displayRoot : FPath) (pattern : Value)
    (maxResults contextChars : Value) (ignoreCase : Bool) :
    Except RunError Value :=
  match asPyInt maxResults with
  | none => .error (dslMsg ("max_results must be a positive integer"))
  | some mr =>
    if mr < 1 then .error (dslMsg ("max_results must be a positive integer"))
    else
      match asPyInt contextChars with
      | none => .error (dslMsg ("context_chars must be a non-negative integer"))
      | some cc =>
        if cc < 0 then .error (dslMsg ("context_chars must be a non-negative integer"))
        else do
          let matcher ← compileRegex re pattern ignoreCase
          match hooks.snippetsImpl path displayRoot matcher mr cc with
          | .ok xs => .ok (.list (xs.map (.str)))
          | .error h => .error h.toRunError

/-- Embeds `DSLFile.semantic_search`: validation, then
`semantic_search_file_pages`. -/
def dslFileSemanticSearch (fs : FileSystem) (pyHash : String → Nat)
    (path : FPath) (displayRoot : FPath) (query topK : Value) :
    Except RunError Value :=
  match query with
  | .str q =>
    if pyStrip q == "" then .error (dslMsg ("query must be a non-empty string"))
    else
      match asPyInt topK with
      | none => .error (dslMsg ("top_k must be a positive integer"))
      | some k =>
        if k < 1 then .error (dslMsg ("top_k must be a positive integer"))
        else do
          let pages ← semanticSearchFilePages fs pyHash path q k displayRoot
          .ok (.list (pages.map (.int)))
  | _ => .error (dslMsg ("query must be a non-empty string"))

/-- Embeds `DSLDirectory.__init__` (the constructed value, or the
construction failure): an existing path must be a directory; a
non-existing path must have database-backed files. -/
def dslDirectoryInit (fs : FileSystem) (path : FPath) (recursive : Bool)
    (displayRoot : FPath) : Except RunError Value :=
  if fs.pathExists path then
    if !fs.isDir path then
      .error (dslMsg ("Path is not a directory: " ++ renderRelativePath fs path displayRoot))
    else .ok (.dir path recursive displayRoot)
  else if (match getDirectoryFilePathsFromDatabase fs path true displayRoot with
           | some paths => !paths.isEmpty
           | none => false) then
    .ok (.dir path recursive displayRoot)
  else
    .error (dslMsg ("Directory does not exist: " ++ renderRelativePath fs path displayRoot))

/-- Embeds `DSLDirectory.files` (`recursive=None` falls back to the
directory's flag; any other value is used for its truthiness by
`_iter_file_paths`'s `if recursive:`). -/
def dslDirFiles (fs : FileSystem) (path : FPath) (dirRecursive : Bool)
    (displayRoot : FPath) (recursiveArg : Value) : Value :=
  let rec' := match recursiveArg with
    | .pynone => dirRecursive
    | v => isTruthy fs v
  .list ((iterFilePaths fs path rec' displayRoot).map (fun p => .file p displayRoot))

/-- Embeds `DSLDirectory.tree`: argument validation, then the host
rendering behind `HostHooks.treeImpl`. -/
def dslDirTree (fs : FileSystem) (hooks : HostHooks) (path : FPath)
    (dirRecursive : Bool) (displayRoot : FPath) (maxDepth maxEntries : Value) :
    Except RunError Value :=
  match asPyInt maxDepth with
  | none => .error (dslMsg ("max_depth must be a non-negative integer"))
  | some d =>
    if d < 0 then .error (dslMsg ("max_depth must be a non-negative integer"))
    else
      match asPyInt maxEntries with
      | none => .error (dslMsg ("max_entries must be a positive integer"))
      | some e =>
        if e < 1 then .error (dslMsg ("max_entries must be a positive integer"))
        else
          match hooks.treeImpl path dirRecursive displayRoot d e with
          | .ok s => .ok (.str s)
          | .error h => .error h.toRunError

/-- The per-file loop of `DSLDirectory.search`. -/
def dirSearchLoop (fs : FileSystem) (re : RegexEngine) (dirPath : FPath)
    (displayRoot : FPath) (matcher : String → Bool) (pattern : Value)
    (ignoreCase : Bool) (scope : String) :
    List FPath → Except RunError (List Value)
  | [] => .ok []
  | f :: rest => do
    let relative := relTo f dirPath
    let nameMatch := matcher (fileNameOf f) || matcher relative
    let contentMatch ←
      if scope == "content" || scope == "both" then
        dslFileContains fs re f displayRoot pattern ignoreCase
      else pure false
    let keep :=
      if scope == "name" then nameMatch
      else if scope == "content" then contentMatch
      else nameMatch || contentMatch
    let tail ← dirSearchLoop fs re dirPath displayRoot matcher pattern ignoreCase scope rest
    .ok (if keep then .file f displayRoot :: tail else tail)

/-- Embeds `DSLDirectory.search`. -/
def dslDirSearch (fs : FileSystem) (re : RegexEngine) (path : FPath)
    (dirRecursive : Bool) (displayRoot : FPath)
    (pattern scopeArg inContent recursiveArg ignoreCase : Value) :
    Except RunError Value :=
  let rec' := match recursiveArg with
    | .pynone => dirRecursive
    | v => isTruthy fs v
  let scopeVal : Value := if isTruthy fs inContent then .str ("content") else scopeArg
  let ic := isTruthy fs ignoreCase
  match scopeVal with
  | .str sc =>
    if sc == "name" || sc == "content" || sc == "both" then do
      let matcher ← compileRegex re pattern ic
      let files := iterFilePaths fs path rec' displayRoot
      let found ← dirSearchLoop fs re path displayRoot matcher pattern ic sc files
      .ok (.list found)
    else
      .error (dslMsg ("scope must be one of: " ++ quoted ("name") ++ ", " ++
        quoted ("content") ++ ", " ++ quoted ("both")))
  | _ =>
    .error (dslMsg ("scope must be one of: " ++ quoted ("name") ++ ", " ++
      quoted ("content") ++ ", " ++ quoted ("both")))

/-- Embeds `DSLDirectory.__len__`. -/
def dslDirLen (fs : FileSystem) (path : FPath) (recursive : Bool)
    (displayRoot : FPath) : Nat :=
  (iterFilePaths fs path recursive displayRoot).length

/-! ## Python value semantics used by the evaluator

Equality (`==`), ordering and the arithmetic operators the evaluator
applies directly (`interpreter.py` lines 157–186 evaluate
`left <op> right` with the host's own dynamic semantics; the functions
below embed CPython's behaviour on the value domain). -/

mutual

/-- Embeds Python `==` on the value domain (never raises): numeric values
compare by value across `int`/`bool`/`float`; lists compare elementwise;
distinct types are unequal.  CPython compares `DSLFile`/`DSLDirectory` by
object identity, which this conflates with equality of their data. -/
def pyEqVal : Value → Value → Bool
  | a, b =>
    match asNumQ a, asNumQ b with
    | some (x, _), some (y, _) => x == y
    | _, _ =>
      match a, b with
      | .str s, .str t => s == t
      | .pynone, .pynone => true
      | .list xs, .list ys => pyEqList xs ys
      | .dir p r d, .dir p2 r2 d2 => p == p2 && (r == r2 && d == d2)
      | .file p d, .file p2 d2 => p == p2 && d == d2
      | .builtin x, .builtin y => x == y
      | _, _ => false

def pyEqList : List Value → List Value → Bool
  | [], [] => true
  | x :: xs, y :: ys => pyEqVal x y && pyEqList xs ys
  | _, _ => false

end

mutual

/-- Embeds Python's ordering comparisons: numbers (including `bool`)
compare by value, strings lexicographically by code point, lists
lexicographically; everything else is incomparable and yields the
`TypeError` type-name pair of the offending operands. -/
def pyCmpOrd : Value → Value → Except (String × String) Ordering
  | a, b =>
    match asNumQ a, asNumQ b with
    | some (x, _), some (y, _) => .ok (compare x y)
    | _, _ =>
      match a, b with
      | .str s, .str t => .ok (compare s t)
      | .list xs, .list ys => pyCmpList xs ys
      | _, _ => .error (typeName a, typeName b)

def pyCmpList : List Value → List Value → Except (String × String) Ordering
  | [], [] => .ok .eq
  | [], _ :: _ => .ok .lt
  | _ :: _, [] => .ok .gt
  | x :: xs, y :: ys => if pyEqVal x y then pyCmpList xs ys else pyCmpOrd x y

end

def unsupportedOperands (op : String) (a b : Value) : RunError :=
  .host (.typeErr ("unsupported operand type(s) for " ++ op ++ ": " ++
    quoted (typeName a) ++ " and " ++ quoted (typeName b)))

/-- Embeds `s * n` / `n * s` string repetition. -/
def strRepeat (s : String) (n : Int) : String :=
  (List.replicate n.toNat s).foldl (· ++ ·) ("")

def listRepeat (xs : List Value) (n : Int) : List Value :=
  (List.replicate n.toNat xs).flatten

/-- Embeds the host semantics of `left + right`. -/
def pyAdd (a b : Value) : Except RunError Value :=
  match asPyInt a, asPyInt b with
  | some x, some y => .ok (.int (x + y))
  | _, _ =>
    match asNumQ a, asNumQ b with
    | some (x, _), some (y, _) => .ok (.float (x + y))
    | _, _ =>
      match a, b with
      | .str s, .str t => .ok (.str (s ++ t))
      | .str _, _ =>
        .error (.host (.typeErr ("can only concatenate str (not \"" ++
          typeName b ++ "\") to str")))
      | .list xs, .list ys => .ok (.list (xs ++ ys))
      | .list _, _ =>
        .error (.host (.typeErr ("can only concatenate list (not \"" ++
          typeName b ++ "\") to list")))
      | _, _ => .error (unsupportedOperands ("+") a b)

/-- Embeds the host semantics of `left - right`. -/
def pySub (a b : Value) : Except RunError Value :=
  match asPyInt a, asPyInt b with
  | some x, some y => .ok (.int (x - y))
  | _, _ =>
    match asNumQ a, asNumQ b with
    | some (x, _), some (y, _) => .ok (.float (x - y))
    | _, _ => .error (unsupportedOperands ("-") a b)

/-- Embeds the host semantics of `left * right` (including sequence
repetition — the evaluator performs no integer-only check). -/
def pyMul (a b : Value) : Except RunError Value :=
  match asPyInt a, asPyInt b with
  | some x, some y => .ok (.int (x * y))
  | _, _ =>
    match asNumQ a, asNumQ b with
    | some (x, _), some (y, _) => .ok (.float (x * y))
    | _, _ =>
      match a, b with
      | .str s, _ =>
        match asPyInt b with
        | some n => .ok (.str (strRepeat s n))
        | none =>
          .error (.host (.typeErr ("can" ++ sq ++ "t multiply sequence by non-int of type " ++
            quoted (typeName b))))
      | .list xs, _ =>
        match asPyInt b with
        | some n => .ok (.list (listRepeat xs n))
        | none =>
          .error (.host (.typeErr ("can" ++ sq ++ "t multiply sequence by non-int of type " ++
            quoted (typeName b))))
      | _, .str s =>
        match asPyInt a with
        | some n => .ok (.str (strRepeat s n))
        | none => .error (unsupportedOperands ("*") a b)
      | _, .list ys =>
        match asPyInt a with
        | some n => .ok (.list (listRepeat ys n))
        | none => .error (unsupportedOperands ("*") a b)
      | _, _ => .error (unsupportedOperands ("*") a b)

/-- Embeds the host semantics of `left / right`: Python 3 true division —
two integers produce a float; a zero divisor raises `ZeroDivisionError`. -/
def pyDiv (a b : Value) : Except RunError Value :=
  match asNumQ a, asNumQ b with
  | some (x, fx), some (y, fy) =>
    if y == 0 then
      .error (.host (.otherErr
        (if fx || fy then "float division by zero" else "division by zero")))
    else .ok (.float (x / y))
  | _, _ => .error (unsupportedOperands ("/") a b)

/-- Embeds the host semantics of `left % right` (Python's remainder takes
the divisor's sign, i.e. flooring division; `%` on a string is printf-style
formatting, modelled only in its specifier-free `TypeError` case). -/
def pyMod (a b : Value) : Except RunError Value :=
  match asPyInt a, asPyInt b with
  | some x, some y =>
    if y == 0 then .error (.host (.otherErr ("integer modulo by zero")))
    else .ok (.int (Int.fmod x y))
  | _, _ =>
    match a, b with
    | .str _, _ =>
      .error (.host (.typeErr ("not all arguments converted during string formatting")))
    | _, _ =>
      match asNumQ a, asNumQ b with
      | some (x, _), some (y, _) =>
        if y == 0 then .error (.host (.otherErr ("float modulo")))
        else .ok (.float (x - y * ((x / y).floor : ℚ)))
      | _, _ => .error (unsupportedOperands ("%") a b)

/-- Dispatch of `interpreter.py`'s arithmetic `BinaryOp` arms (`+`, `-`,
`*`, `/`, `%`); `none` corresponds to the final
`Unsupported binary operator` error, raised with the node's location by
the evaluator. -/
def applyBinary (op : String) (l r : Value) : Option (Except RunError Value) :=
  if op == "+" then some (pyAdd l r)
  else if op == "-" then some (pySub l r)
  else if op == "*" then some (pyMul l r)
  else if op == "/" then some (pyDiv l r)
  else if op == "%" then some (pyMod l r)
  else none

def orderingSatisfies (op : String) (o : Ordering) : Bool :=
  if op == "<" then o == .lt
  else if op == "<=" then o != .gt
  else if op == ">" then o == .gt
  else o != .lt

/-- Dispatch of the `CompareOp` arms. -/
def applyCompare (op : String) (a b : Value) : Option (Except RunError Value) :=
  if op == "==" then some (.ok (.bool (pyEqVal a b)))
  else if op == "!=" then some (.ok (.bool (!pyEqVal a b)))
  else if op == "<" || op == "<=" || op == ">" || op == ">=" then
    some (match pyCmpOrd a b with
      | .ok o => .ok (.bool (orderingSatisfies op o))
      | .error tt =>
        .error (.host (.typeErr (quoted op ++ " not supported between instances of " ++
          quoted tt.1 ++ " and " ++ quoted tt.2))))
  else none

/-! ## AST (`filesdsl/ast_nodes.py`) -/

structure SourceLoc where
  line : Nat
  column : Nat
  deriving Repr, DecidableEq

inductive LitVal where
  | intL (n : Int)
  | strL (s : String)
  | boolL (b : Bool)
  deriving Repr, DecidableEq

def LitVal.toValue : LitVal → Value
  | .intL n => .int n
  | .strL s => .str s
  | .boolL b => .bool b

inductive Expr where
  | lit (v : LitVal) (loc : SourceLoc)
  | name (identifier : String) (loc : SourceLoc)
  | listLit (items : List Expr) (loc : SourceLoc)
  | rangeItem (startE stopE : Expr) (loc : SourceLoc)
  | attr (obj : Expr) (attrName : String) (loc : SourceLoc)
  | call (callee : Expr) (args : List Expr) (kwargs : List (String × Expr)) (loc : SourceLoc)
  | unary (op : String) (operand : Expr) (loc : SourceLoc)
  | binary (op : String) (left right : Expr) (loc : SourceLoc)
  | compare (op : String) (left right : Expr) (loc : SourceLoc)
  deriving Repr

inductive Stmt where
  | assign (name : String) (e : Expr) (loc : SourceLoc)
  | exprStmt (e : Expr) (loc : SourceLoc)
  | forStmt (varName : String) (iter : Expr) (body : List Stmt) (loc : SourceLoc)
  | ifStmt (branches : List (Expr × List Stmt)) (elseBody : Option (List Stmt))
      (loc : SourceLoc)
  deriving Repr

structure Program where
  statements : List Stmt
  deriving Repr

/-- Location carried by every statement node. -/
def Stmt.loc : Stmt → SourceLoc
  | .assign _ _ l => l
  | .exprStmt _ l => l
  | .forStmt _ _ _ l => l
  | .ifStmt _ _ l => l

/-! ## Interpreter (`filesdsl/interpreter.py`)

The evaluator runs in a context `Ctx` holding the host facilities and the
`Interpreter.__init__` data (resolved `cwd`, resolved `sandbox_root`,
`source.splitlines()`), plus the process working directory `Path.cwd()`
that the runtime objects use as their default display root.  Parsing is a
separate component (`parser.py`); the claims below concern evaluation, so
programs enter as ASTs. -/

structure Ctx where
  fs : FileSystem
  re : RegexEngine
  hooks : HostHooks
  pyHash : String → Nat
  cwd : FPath
  sandboxRoot : FPath
  processCwd : FPath
  sourceLines : List String

/-- Interpreter state: the flat variable environment `Interpreter.variables`
(insertion-ordered, like a Python dict) and the captured stdout text. -/
structure St where
  vars : List (String × Value)
  output : String
  deriving Repr

def envGet (vars : List (String × Value)) (k : String) : Option Value :=
  (vars.find? (fun kv => kv.1 == k)).map (·.2)

def envSet : List (String × Value) → String → Value → List (String × Value)
  | [], k, v => [(k, v)]
  | (k0, v0) :: t, k, v =>
    if k0 == k then (k0, v) :: t else (k0, v0) :: envSet t k v

/-- Embeds `Interpreter.__init__`'s builtin table (`interpreter.py`
lines 43–47): exactly `Directory`, `print` and `len`. -/
def builtinsTable : List (String × Value) :=
  [("Directory", .builtin .bDirectory),
   ("print", .builtin .bPrint),
   ("len", .builtin .bLen)]

/-- Embeds `Interpreter._runtime_error` with a location: the raised
`DSLRuntimeError` carries the node's line and column and the matching
source line (empty when the line number is outside the source). -/
def runtimeErrorAt (ctx : Ctx) (msg : String) (loc : SourceLoc) : RunError :=
  .dsl msg (some loc.line) (some loc.column)
    (some (if 1 ≤ loc.line && loc.line ≤ ctx.sourceLines.length then
      ctx.sourceLines.getD (loc.line - 1) ("") else ""))

mutual

/-- Embeds `Interpreter._render_value`. -/
def renderValue : Value → Value
  | .list xs => .list (renderList xs)
  | v => v

def renderList : List Value → List Value
  | [] => []
  | v :: t => renderValue v :: renderList t

end

def accessDeniedMsg (candidate root : FPath) : String :=
  "Access denied. " ++ quoted (renderPosix candidate) ++
    " is outside sandbox root " ++ quoted (renderPosix root)

/-- Embeds `Path(path)` for a user-supplied path string: absolute flag and
components. -/
def parsePathStr (s : String) : Bool × List String :=
  (pyStartsWith s ("/"), (splitOnSlash s).filter (fun c => c != ""))

/-- Embeds `Interpreter._builtin_directory` (after Python has bound the
call's arguments): type checks, path resolution against the interpreter
`cwd`, the sandbox containment check, then `DSLDirectory` construction
with the process working directory as display root. -/
def builtinDirectory (ctx : Ctx) (pathV recV : Value) : Except RunError Value :=
  match pathV with
  | .str s =>
    match recV with
    | .bool r =>
      let parsed := parsePathStr s
      let candidate :=
        if parsed.1 then ctx.fs.resolve parsed.2
        else ctx.fs.resolve (ctx.cwd ++ parsed.2)
      if !(ctx.sandboxRoot.isPrefixOf candidate) then
        .error (dslMsg (accessDeniedMsg candidate ctx.sandboxRoot))
      else dslDirectoryInit ctx.fs candidate r ctx.processCwd
    | _ => .error (dslMsg ("Directory(..., recursive=...) expects a boolean"))
  | _ => .error (dslMsg ("Directory(path) expects a string path"))

/-- Binds call arguments to a parameter spec `(name, default?)` the way
CPython binds them for the built-ins' signatures: positionals fill left to
right, keywords by name, with `TypeError`s for surplus positionals,
unknown keywords, duplicate bindings and missing required parameters
(message texts modelled after CPython's). -/
def bindFill (fname : String) :
    List (String × Option Value) → List Value → List (String × Value) →
    Except RunError (List Value)
  | [], _, _ => .ok []
  | (pname, default) :: spec, args, kwargs =>
    let v? : Option Value :=
      match args.head? with
      | some a => some a
      | none =>
        match kwargs.find? (fun kv => kv.1 == pname) with
        | some kv => some kv.2
        | none => default
    match v? with
    | some v => (bindFill fname spec (args.drop 1) kwargs).map (v :: ·)
    | none =>
      .error (.host (.typeErr (fname ++ "() missing 1 required positional argument: " ++
        quoted pname)))

def bindParams (fname : String) (spec : List (String × Option Value))
    (args : List Value) (kwargs : List (String × Value)) :
    Except RunError (List Value) :=
  if spec.length < args.length then
    .error (.host (.typeErr (fname ++ "() takes " ++ toString spec.length ++
      " positional arguments but " ++ toString args.length ++ " were given")))
  else
    match kwargs.find? (fun kv => !(spec.any (fun sp => sp.1 == kv.1))) with
    | some kv =>
      .error (.host (.typeErr (fname ++ "() got an unexpected keyword argument " ++
        quoted kv.1)))
    | none =>
      match (spec.take args.length).find? (fun sp => kwargs.any (fun kv => kv.1 == sp.1)) with
      | some sp =>
        .error (.host (.typeErr (fname ++ "() got multiple values for argument " ++
          quoted sp.1)))
      | none => bindFill fname spec args kwargs

def fileMethodOfName (s : String) : Option FileMethod :=
  if s == "read" then some .read
  else if s == "search" then some .search
  else if s == "contains" then some .contains
  else if s == "head" then some .head
  else if s == "tail" then some .tail
  else if s == "table" then some .table
  else if s == "semantic_search" then some .semanticSearch
  else if s == "snippets" then some .snippets
  else none

def dirMethodOfName (s : String) : Option DirMethod :=
  if s == "files" then some .files
  else if s == "tree" then some .tree
  else if s == "search" then some .search
  else none

/-- Embeds the `hasattr`/`getattr` pair of the `Attribute` arm for the DSL
runtime objects (their public methods; the host attribute surface of other
host objects is outside the model and no claim touches it). -/
def attrLookup : Value → String → Option Value
  | .file p droot, aname =>
    (fileMethodOfName aname).map fun m => .builtin (.fileM m p droot)
  | .dir p r droot, aname =>
    (dirMethodOfName aname).map fun m => .builtin (.dirM m p r droot)
  | _, _ => none

/-- Embeds invocation of a bound `DSLFile` method. -/
def invokeFileMethod (ctx : Ctx) (m : FileMethod) (p : FPath) (droot : FPath)
    (args : List Value) (kwargs : List (String × Value)) :
    Except RunError Value :=
  match m with
  | .read => do
    let bound ← bindParams ("read") [("pages", some .pynone)] args kwargs
    dslFileRead ctx.fs p droot (bound.getD 0 .pynone)
  | .search => do
    let bound ← bindParams ("search")
      [("pattern", none), ("ignore_case", some (.bool false))] args kwargs
    let pages ← dslFileSearch ctx.fs ctx.re p droot (bound.getD 0 .pynone)
      (isTruthy ctx.fs (bound.getD 1 .pynone))
    .ok (.list (pages.map (.int)))
  | .contains => do
    let bound ← bindParams ("contains")
      [("pattern", none), ("ignore_case", some (.bool false))] args kwargs
    let found ← dslFileContains ctx.fs ctx.re p droot (bound.getD 0 .pynone)
      (isTruthy ctx.fs (bound.getD 1 .pynone))
    .ok (.bool found)
  | .head => do
    let _ ← bindParams ("head") [] args kwargs
    dslFileHead ctx.fs p droot
  | .tail => do
    let _ ← bindParams ("tail") [] args kwargs
    dslFileTail ctx.fs p droot
  | .table => do
    let bound ← bindParams ("table") [("max_items", some (.int 50))] args kwargs
    dslFileTable ctx.fs ctx.hooks p droot (bound.getD 0 .pynone)
  | .semanticSearch => do
    let bound ← bindParams ("semantic_search")
      [("query", none), ("top_k", some (.int 5))] args kwargs
    dslFileSemanticSearch ctx.fs ctx.pyHash p droot (bound.getD 0 .pynone)
      (bound.getD 1 .pynone)
  | .snippets => do
    let bound ← bindParams ("snippets")
      [("pattern", none), ("max_results", some (.int 5)),
       ("context_chars", some (.int 80)), ("ignore_case", some (.bool false))]
      args kwargs
    dslFileSnippets ctx.fs ctx.re ctx.hooks p droot (bound.getD 0 .pynone)
      (bound.getD 1 .pynone) (bound.getD 2 .pynone)
      (isTruthy ctx.fs (bound.getD 3 .pynone))

/-- Embeds invocation of a bound `DSLDirectory` method. -/
def invokeDirMethod (ctx : Ctx) (m : DirMethod) (p : FPath) (dirRec : Bool)
    (droot : FPath) (args : List Value) (kwargs : List (String × Value)) :
    Except RunError Value :=
  match m with
  | .files => do
    let bound ← bindParams ("files") [("recursive", some .pynone)] args kwargs
    .ok (dslDirFiles ctx.fs p dirRec droot (bound.getD 0 .pynone))
  | .tree => do
    let bound ← bindParams ("tree")
      [("max_depth", some (.int 5)), ("max_entries", some (.int 500))] args kwargs
    dslDirTree ctx.fs ctx.hooks p dirRec droot (bound.getD 0 .pynone)
      (bound.getD 1 .pynone)
  | .search => do
    let bound ← bindParams ("search")
      [("pattern", none), ("scope", some (.str "name")),
       ("in_content", some (.bool false)), ("recursive", some .pynone),
       ("ignore_case", some (.bool false))] args kwargs
    dslDirSearch ctx.fs ctx.re p dirRec droot (bound.getD 0 .pynone)
      (bound.getD 1 .pynone) (bound.getD 2 .pynone) (bound.getD 3 .pynone)
      (bound.getD 4 .pynone)

/-- Embeds `callee(*args, **kwargs)` for the callable values (the
built-ins and bound methods); errors are raw host `TypeError`s or the
library's own `DSL…Error`s, converted by the `Call` arm's `except`
blocks. -/
def invokeBuiltin (ctx : Ctx) (b : BuiltinFn) (args : List Value)
    (kwargs : List (String × Value)) (st : St) :
    Except RunError (Value × St) :=
  match b with
  | .bPrint =>
    match kwargs.head? with
    | some kv =>
      .error (.host (.typeErr ("_builtin_print() got an unexpected keyword argument " ++
        quoted kv.1)))
    | none =>
      let rendered := args.map renderValue
      let line := String.intercalate (" ") (rendered.map (pyStr ctx.fs))
      .ok (.pynone, { st with output := st.output ++ line ++ "\n" })
  | .bLen =>
    if !kwargs.isEmpty then
      .error (.host (.typeErr ("len() takes no keyword arguments")))
    else
      match args with
      | [v] =>
        match v with
        | .str s => .ok (.int s.length, st)
        | .list xs => .ok (.int xs.length, st)
        | .dir p r droot => .ok (.int (dslDirLen ctx.fs p r droot), st)
        | _ =>
          .error (.host (.typeErr ("object of type " ++ quoted (typeName v) ++
            " has no len()")))
      | _ =>
        .error (.host (.typeErr ("len() takes exactly one argument (" ++
          toString args.length ++ " given)")))
  | .bDirectory => do
    let bound ← bindParams ("_builtin_directory")
      [("path", none), ("recursive", some (.bool true))] args kwargs
    let v ← builtinDirectory ctx (bound.getD 0 .pynone) (bound.getD 1 .pynone)
    .ok (v, st)
  | .fileM m p droot => do
    let v ← invokeFileMethod ctx m p droot args kwargs
    .ok (v, st)
  | .dirM m p r droot => do
    let v ← invokeDirMethod ctx m p r droot args kwargs
    .ok (v, st)

/-- Elements an evaluated value yields in a `for` loop, when it has
`__iter__`: lists and strings (characters) do, `DSLDirectory` yields its
files; everything else fails the evaluator's iterability check. -/
def iterElems (ctx : Ctx) : Value → Option (List Value)
  | .list xs => some xs
  | .str s => some (s.data.map fun c => .str (String.mk [c]))
  | .dir p r droot =>
    some ((iterFilePaths ctx.fs p r droot).map fun f => .file f droot)
  | _ => none

/-- Inclusive ascending range `range(start, end + 1)` of
`_eval_list_literal`. -/
def intRangeAsc (a b : Int) : List Value :=
  (List.range (b + 1 - a).toNat).map fun i => .int (a + i)

/-- Inclusive descending range `range(start, end - 1, -1)`. -/
def intRangeDesc (a b : Int) : List Value :=
  (List.range (a - b + 1).toNat).map fun i => .int (a - i)

mutual

/-- Embeds `Interpreter._eval_expr`.  The first argument is the structural
recursion budget (see the module comment); every recursive call consumes
one unit. -/
def evalExpr : Nat → Ctx → Expr → St → EvalRes RunError (Value × St)
  | 0, _, _, _ => .nofuel
  | fuel + 1, ctx, e, st =>
    match e with
    | .lit v _ => .ok (v.toValue, st)
    | .name id loc =>
      match envGet st.vars id with
      | some v => .ok (v, st)
      | none =>
        match envGet builtinsTable id with
        | some v => .ok (v, st)
        | none => .err (runtimeErrorAt ctx ("Undefined variable " ++ quoted id) loc)
    | .listLit items _ => do
      let (vs, st1) ← evalListItems fuel ctx items st
      pure (.list vs, st1)
    | .rangeItem _ _ loc =>
      .err (runtimeErrorAt ctx ("Range syntax is only valid inside list literals") loc)
    | .attr obj aname loc => do
      let (ov, st1) ← evalExpr fuel ctx obj st
      match attrLookup ov aname with
      | some v => pure (v, st1)
      | none =>
        .err (runtimeErrorAt ctx ("Object of type " ++ quoted (typeName ov) ++
          " has no attribute " ++ quoted aname) loc)
    | .call callee args kwargs loc => do
      let (cv, st1) ← evalExpr fuel ctx callee st
      match cv with
      | .builtin b => do
        let (avs, st2) ← evalArgs fuel ctx args st1
        let (kvs, st3) ← evalKwargs fuel ctx kwargs st2
        match invokeBuiltin ctx b avs kvs st3 with
        | .ok (v, st4) => pure (v, st4)
        | .error (.host (.typeErr m)) =>
          .err (runtimeErrorAt ctx ("Call failed: " ++ m) loc)
        | .error (.host (.otherErr m)) => .err (runtimeErrorAt ctx m loc)
        | .error err => .err err
      | _ => .err (runtimeErrorAt ctx ("Attempted to call a non-callable value") loc)
    | .unary op operand loc => do
      let (v, st1) ← evalExpr fuel ctx operand st
      if op == "not" then pure (.bool (!isTruthy ctx.fs v), st1)
      else if op == "-" then
        match asPyInt v with
        | some n => pure (.int (-n), st1)
        | none => .err (runtimeErrorAt ctx ("Unary " ++ quoted ("-") ++ " expects an integer") loc)
      else .err (runtimeErrorAt ctx ("Unsupported unary operator " ++ quoted op) loc)
    | .binary op l r loc =>
      if op == "and" then do
        let (lv, st1) ← evalExpr fuel ctx l st
        if isTruthy ctx.fs lv then do
          let (rv, st2) ← evalExpr fuel ctx r st1
          pure (.bool (isTruthy ctx.fs rv), st2)
        else pure (.bool false, st1)
      else if op == "or" then do
        let (lv, st1) ← evalExpr fuel ctx l st
        if isTruthy ctx.fs lv then pure (.bool true, st1)
        else do
          let (rv, st2) ← evalExpr fuel ctx r st1
          pure (.bool (isTruthy ctx.fs rv), st2)
      else do
        let (lv, st1) ← evalExpr fuel ctx l st
        let (rv, st2) ← evalExpr fuel ctx r st1
        match applyBinary op lv rv with
        | some res =>
          match res with
          | .ok v => pure (v, st2)
          | .error err => .err err
        | none =>
          .err (runtimeErrorAt ctx ("Unsupported binary operator " ++ quoted op) loc)
    | .compare op l r loc => do
      let (lv, st1) ← evalExpr fuel ctx l st
      let (rv, st2) ← evalExpr fuel ctx r st1
      match applyCompare op lv rv with
      | some res =>
        match res with
        | .ok v => pure (v, st2)
        | .error err => .err err
      | none =>
        .err (runtimeErrorAt ctx ("Unsupported comparison operator " ++ quoted op) loc)

/-- Embeds `Interpreter._eval_list_literal`'s item loop. -/
def evalListItems : Nat → Ctx → List Expr → St → EvalRes RunError (List Value × St)
  | 0, _, _, _ => .nofuel
  | fuel + 1, ctx, items, st =>
    match items with
    | [] => .ok ([], st)
    | .rangeItem s e loc :: rest => do
      let (sv, st1) ← evalExpr fuel ctx s st
      let (ev, st2) ← evalExpr fuel ctx e st1
      match asPyInt sv, asPyInt ev with
      | some a, some b => do
        let vals := if a ≤ b then intRangeAsc a b else intRangeDesc a b
        let (tail, st3) ← evalListItems fuel ctx rest st2
        pure (vals ++ tail, st3)
      | _, _ => .err (runtimeErrorAt ctx ("Range bounds must be integers") loc)
    | item :: rest => do
      let (v, st1) ← evalExpr fuel ctx item st
      let (tail, st2) ← evalListItems fuel ctx rest st1
      pure (v :: tail, st2)

/-- Sequential evaluation of positional call arguments. -/
def evalArgs : Nat → Ctx → List Expr → St → EvalRes RunError (List Value × St)
  | 0, _, _, _ => .nofuel
  | fuel + 1, ctx, exprs, st =>
    match exprs with
    | [] => .ok ([], st)
    | e :: rest => do
      let (v, st1) ← evalExpr fuel ctx e st
      let (tail, st2) ← evalArgs fuel ctx rest st1
      pure (v :: tail, st2)

/-- Sequential evaluation of keyword call arguments. -/
def evalKwargs : Nat → Ctx → List (String × Expr) → St →
    EvalRes RunError (List (String × Value) × St)
  | 0, _, _, _ => .nofuel
  | fuel + 1, ctx, pairs, st =>
    match pairs with
    | [] => .ok ([], st)
    | (k, e) :: rest => do
      let (v, st1) ← evalExpr fuel ctx e st
      let (tail, st2) ← evalKwargs fuel ctx rest st1
      pure ((k, v) :: tail, st2)

end

mutual

/-- Embeds `Interpreter._execute_statement`: the statement dispatch wrapped
in `try: … except DSLRuntimeError: raise; except Exception as exc:
self._runtime_error(str(exc), stmt.loc)`.  Any raw host exception escaping
the dispatch is converted into a `DSLRuntimeError` carrying the
statement's location and source line; the library's own errors (including
`DSLTimeoutError`, a subclass) are re-raised unchanged. -/
def execStmt : Nat → Ctx → Stmt → St → EvalRes RunError St
  | 0, _, _, _ => .nofuel
  | fuel + 1, ctx, stmt, st =>
    match execStmtCore fuel ctx stmt st with
    | .err (.host h) => .err (runtimeErrorAt ctx h.msg stmt.loc)
    | r => r

/-- The statement dispatch inside the `try` block. -/
def execStmtCore : Nat → Ctx → Stmt → St → EvalRes RunError St
  | 0, _, _, _ => .nofuel
  | fuel + 1, ctx, stmt, st =>
    match stmt with
    | .assign name e _ => do
      let (v, st1) ← evalExpr fuel ctx e st
      pure { st1 with vars := envSet st1.vars name v }
    | .exprStmt e _ => do
      let (_, st1) ← evalExpr fuel ctx e st
      pure st1
    | .forStmt varName iter body loc => do
      let (itv, st1) ← evalExpr fuel ctx iter st
      match iterElems ctx itv with
      | none => .err (runtimeErrorAt ctx ("for-loop target is not iterable") loc)
      | some vals => execForLoop fuel ctx varName vals body st1
    | .ifStmt branches elseBody _ => execBranches fuel ctx branches elseBody st

/-- The `for value in iterable:` loop body of the `ForStatement` arm. -/
def execForLoop : Nat → Ctx → String → List Value → List Stmt → St →
    EvalRes RunError St
  | 0, _, _, _, _, _ => .nofuel
  | fuel + 1, ctx, varName, vals, body, st =>
    match vals with
    | [] => .ok st
    | v :: rest => do
      let st1 := { st with vars := envSet st.vars varName v }
      let st2 ← execStmts fuel ctx body st1
      execForLoop fuel ctx varName rest body st2

/-- The branch scan of the `IfStatement` arm. -/
def execBranches : Nat → Ctx → List (Expr × List Stmt) → Option (List Stmt) →
    St → EvalRes RunError St
  | 0, _, _, _, _ => .nofuel
  | fuel + 1, ctx, branches, elseBody, st =>
    match branches with
    | [] =>
      match elseBody with
      | none => .ok st
      | some body => execStmts fuel ctx body st
    | (cond, body) :: rest => do
      let (cv, st1) ← evalExpr fuel ctx cond st
      if isTruthy ctx.fs cv then execStmts fuel ctx body st1
      else execBranches fuel ctx rest elseBody st1

/-- Embeds `Interpreter._execute_program` (and the statement lists of
nested blocks). -/
def execStmts : Nat → Ctx → List Stmt → St → EvalRes RunError St
  | 0, _, _, _ => .nofuel
  | fuel + 1, ctx, stmts, st =>
    match stmts with
    | [] => .ok st
    | s :: rest => do
      let st1 ← execStmt fuel ctx s st
      execStmts fuel ctx rest st1

end

/-- Embeds `run_script` / `Interpreter.run` on a parsed program: execute
the statements from an empty environment and empty captured output,
returning the final state (`run` returns its `variables`; the output field
is the text printed so far). -/
def runScript (fuel : Nat) (ctx : Ctx) (prog : Program) : EvalRes RunError St :=
  execStmts fuel ctx prog.statements ⟨[], ""⟩

/-- Embeds `execute_fdsl` on a parsed program: run the script with a fresh
stdout sink and return the captured text (on failure the exception
propagates and the captured text is lost). -/
def executeFdsl (fuel : Nat) (ctx : Ctx) (prog : Program) : EvalRes RunError String :=
  match runScript fuel ctx prog with
  | .ok st => .ok st.output
  | .err e => .err e
  | .nofuel => .nofuel

/-! ## No code path of the evaluator raises a timeout

`DSLTimeoutError` is raised only by `ExecutionBudget.check`.  Every
semantic/runtime function reachable from the evaluator is called with
`budget=None` (there is no budget anywhere in `interpreter.py` or
`runtime.py`), so no evaluation can fail with a timeout.  The lemmas below
establish this for each layer. -/

def NTP (e : RunError) : Prop := e.isTimeout = false

def ExceptNT : Except RunError α → Prop
  | .error e => e.isTimeout = false
  | .ok _ => True

theorem exceptNT_ok {a : α} : ExceptNT (Except.ok a) := trivial

theorem exceptNT_bind {x : Except RunError α} {f : α → Except RunError β}
    (hx : ExceptNT x) (hf : ∀ a, ExceptNT (f a)) : ExceptNT (x.bind f) := by
  cases x with
  | ok a => exact hf a
  | error e => exact hx

theorem exceptNT_bindDo {x : Except RunError α} {f : α → Except RunError β}
    (hx : ExceptNT x) (hf : ∀ a, ExceptNT (f a)) : ExceptNT (Bind.bind x f) :=
  exceptNT_bind hx hf

theorem exceptNT_map {x : Except RunError α} {f : α → β}
    (hx : ExceptNT x) : ExceptNT (x.map f) := by
  cases x with
  | ok a => trivial
  | error e => exact hx

theorem nt_compileRegex (re : RegexEngine) (pattern : Value) (ic : Bool) :
    ExceptNT (compileRegex re pattern ic) := by
  unfold compileRegex
  split <;> try (first | trivial | rfl)
  split <;> (first | trivial | rfl)

theorem nt_findIndexedRoot (fs : FileSystem) (p droot : FPath) :
    ExceptNT (findIndexedRoot fs p droot) := by
  unfold findIndexedRoot
  split <;> (first | trivial | rfl)

theorem nt_loadVectors (fs : FileSystem) (dbPath : FPath) :
    ExceptNT (loadVectors fs dbPath) := by
  unfold loadVectors
  split <;> (first | trivial | rfl)

theorem nt_loadRecordsList (fs : FileSystem) (dbPath : FPath) :
    ExceptNT (loadRecordsList fs dbPath) := by
  unfold loadRecordsList
  split <;> (first | trivial | rfl)

theorem nt_semanticSearchFilePages (fs : FileSystem) (h : String → Nat)
    (p : FPath) (q : String) (k : Int) (droot : FPath) :
    ExceptNT (semanticSearchFilePages fs h p q k droot) := by
  unfold semanticSearchFilePages
  split
  · rfl
  · split
    · rfl
    · refine exceptNT_bindDo (nt_findIndexedRoot ..) fun root => ?_
      refine exceptNT_bindDo (nt_loadVectors ..) fun vectors => ?_
      refine exceptNT_bindDo (nt_loadRecordsList ..) fun records => ?_
      exact exceptNT_ok

theorem nt_hostFail {h : HostFail} :
    ExceptNT (α := α) (Except.error h.toRunError) := by
  cases h <;> rfl

theorem nt_fileChunks (fs : FileSystem) (p droot : FPath) :
    ExceptNT (fileChunks fs p droot) := by
  unfold fileChunks
  split
  · trivial
  · split
    · trivial
    · exact nt_hostFail

theorem nt_normalizePagesLoop (fs : FileSystem) (fn : String) (total : Nat)
    (vals : List Value) (acc : List Int) :
    ExceptNT (normalizePagesLoop fs fn total vals acc) := by
  induction vals generalizing acc with
  | nil => trivial
  | cons v rest ih =>
    unfold normalizePagesLoop
    split
    · rfl
    · split
      · rfl
      · exact ih _

theorem nt_normalizePages (fs : FileSystem) (fn : String) (pages : Value)
    (total : Nat) : ExceptNT (normalizePages fs fn pages total) := by
  unfold normalizePages
  split <;> first
    | exact nt_normalizePagesLoop ..
    | rfl

theorem nt_dslFileRead (fs : FileSystem) (p droot : FPath) (pages : Value) :
    ExceptNT (dslFileRead fs p droot pages) := by
  unfold dslFileRead
  refine exceptNT_bindDo (nt_fileChunks ..) fun chunks => ?_
  split
  · trivial
  · exact exceptNT_bindDo (nt_normalizePages ..) fun sel => exceptNT_ok

theorem nt_dslFileSearch (fs : FileSystem) (re : RegexEngine) (p droot : FPath)
    (pattern : Value) (ic : Bool) :
    ExceptNT (dslFileSearch fs re p droot pattern ic) := by
  unfold dslFileSearch
  refine exceptNT_bindDo (nt_compileRegex ..) fun m => ?_
  exact exceptNT_bindDo (nt_fileChunks ..) fun chunks => exceptNT_ok

theorem nt_dslFileContains (fs : FileSystem) (re : RegexEngine) (p droot : FPath)
    (pattern : Value) (ic : Bool) :
    ExceptNT (dslFileContains fs re p droot pattern ic) := by
  unfold dslFileContains
  exact exceptNT_bindDo (nt_dslFileSearch ..) fun found => exceptNT_ok

theorem nt_dslFileHead (fs : FileSystem) (p droot : FPath) :
    ExceptNT (dslFileHead fs p droot) := by
  unfold dslFileHead
  exact exceptNT_bindDo (nt_fileChunks ..) fun chunks => exceptNT_ok

theorem nt_dslFileTail (fs : FileSystem) (p droot : FPath) :
    ExceptNT (dslFileTail fs p droot) := by
  unfold dslFileTail
  exact exceptNT_bindDo (nt_fileChunks ..) fun chunks => exceptNT_ok

theorem nt_dslFileTable (fs : FileSystem) (hooks : HostHooks) (p droot : FPath)
    (mi : Value) : ExceptNT (dslFileTable fs hooks p droot mi) := by
  unfold dslFileTable
  split
  · split
    · rfl
    · split
      · trivial
      · exact nt_hostFail
  · rfl

theorem nt_dslFileSnippets (fs : FileSystem) (re : RegexEngine)
    (hooks : HostHooks) (p droot : FPath) (pattern mr cc : Value) (ic : Bool) :
    ExceptNT (dslFileSnippets fs re hooks p droot pattern mr cc ic) := by
  unfold dslFileSnippets
  split
  · rfl
  · split
    · rfl
    · split
      · rfl
      · split
        · rfl
        · refine exceptNT_bindDo (nt_compileRegex ..) fun m => ?_
          split
          · trivial
          · exact nt_hostFail

theorem nt_dslFileSemanticSearch (fs : FileSystem) (h : String → Nat)
    (p droot : FPath) (q k : Value) :
    ExceptNT (dslFileSemanticSearch fs h p droot q k) := by
  unfold dslFileSemanticSearch
  split
  · split
    · rfl
    · split
      · rfl
      · split
        · rfl
        · exact exceptNT_bindDo (nt_semanticSearchFilePages ..) fun pages => exceptNT_ok
  · rfl

theorem nt_dslDirectoryInit (fs : FileSystem) (p : FPath) (r : Bool)
    (droot : FPath) : ExceptNT (dslDirectoryInit fs p r droot) := by
  unfold dslDirectoryInit
  split
  · split
    · rfl
    · trivial
  · split
    · trivial
    · rfl

theorem nt_dslDirTree (fs : FileSystem) (hooks : HostHooks) (p : FPath)
    (r : Bool) (droot : FPath) (md me : Value) :
    ExceptNT (dslDirTree fs hooks p r droot md me) := by
  unfold dslDirTree
  split
  · rfl
  · split
    · rfl
    · split
      · rfl
      · split
        · rfl
        · split
          · trivial
          · exact nt_hostFail

theorem nt_dirSearchLoop (fs : FileSystem) (re : RegexEngine) (dp droot : FPath)
    (m : String → Bool) (pattern : Value) (ic : Bool) (sc : String)
    (files : List FPath) :
    ExceptNT (dirSearchLoop fs re dp droot m pattern ic sc files) := by
  induction files with
  | nil => trivial
  | cons f rest ih =>
    unfold dirSearchLoop
    dsimp only
    split
    · exact exceptNT_bindDo (nt_dslFileContains ..) fun cm =>
        exceptNT_bindDo ih fun tail => exceptNT_ok
    · exact exceptNT_bindDo exceptNT_ok fun cm =>
        exceptNT_bindDo ih fun tail => exceptNT_ok

theorem nt_dslDirSearch (fs : FileSystem) (re : RegexEngine) (p : FPath)
    (r : Bool) (droot : FPath) (pattern scopeArg inContent recursiveArg ic : Value) :
    ExceptNT (dslDirSearch fs re p r droot pattern scopeArg inContent recursiveArg ic) := by
  unfold dslDirSearch
  dsimp only
  split
  · split
    · refine exceptNT_bindDo (nt_compileRegex ..) fun m => ?_
      exact exceptNT_bindDo (nt_dirSearchLoop ..) fun found => exceptNT_ok
    · rfl
  · rfl

theorem nt_builtinDirectory (ctx : Ctx) (pathV recV : Value) :
    ExceptNT (builtinDirectory ctx pathV recV) := by
  unfold builtinDirectory
  dsimp only
  repeat' split
  all_goals first | exact nt_dslDirectoryInit .. | rfl

theorem nt_bindFill (fname : String) (spec : List (String × Option Value))
    (args : List Value) (kwargs : List (String × Value)) :
    ExceptNT (bindFill fname spec args kwargs) := by
  induction spec generalizing args with
  | nil => trivial
  | cons sp rest ih =>
    unfold bindFill
    dsimp only
    repeat' split
    all_goals first | exact exceptNT_map (ih _) | rfl

theorem nt_bindParams (fname : String) (spec : List (String × Option Value))
    (args : List Value) (kwargs : List (String × Value)) :
    ExceptNT (bindParams fname spec args kwargs) := by
  unfold bindParams
  split
  · rfl
  · split
    · rfl
    · split
      · rfl
      · exact nt_bindFill ..

theorem nt_invokeFileMethod (ctx : Ctx) (m : FileMethod) (p droot : FPath)
    (args : List Value) (kwargs : List (String × Value)) :
    ExceptNT (invokeFileMethod ctx m p droot args kwargs) := by
  cases m <;> unfold invokeFileMethod <;>
    refine exceptNT_bindDo (nt_bindParams ..) fun bound => ?_
  · exact nt_dslFileRead ..
  · exact exceptNT_bindDo (nt_dslFileSearch ..) fun pages => exceptNT_ok
  · exact exceptNT_bindDo (nt_dslFileContains ..) fun found => exceptNT_ok
  · exact nt_dslFileHead ..
  · exact nt_dslFileTail ..
  · exact nt_dslFileTable ..
  · exact nt_dslFileSemanticSearch ..
  · exact nt_dslFileSnippets ..

theorem nt_invokeDirMethod (ctx : Ctx) (m : DirMethod) (p : FPath) (r : Bool)
    (droot : FPath) (args : List Value) (kwargs : List (String × Value)) :
    ExceptNT (invokeDirMethod ctx m p r droot args kwargs) := by
  cases m <;> unfold invokeDirMethod <;>
    refine exceptNT_bindDo (nt_bindParams ..) fun bound => ?_
  · exact exceptNT_ok
  · exact nt_dslDirTree ..
  · exact nt_dslDirSearch ..

theorem nt_invokeBuiltin (ctx : Ctx) (b : BuiltinFn) (args : List Value)
    (kwargs : List (String × Value)) (st : St) :
    ExceptNT (invokeBuiltin ctx b args kwargs st) := by
  cases b with
  | bPrint =>
    simp only [invokeBuiltin]
    repeat' split
    all_goals first | trivial | rfl
  | bLen =>
    simp only [invokeBuiltin]
    repeat' split
    all_goals first | trivial | rfl
  | bDirectory =>
    simp only [invokeBuiltin]
    exact exceptNT_bindDo (nt_bindParams ..) fun bound =>
      exceptNT_bindDo (nt_builtinDirectory ..) fun v => exceptNT_ok
  | fileM m p droot =>
    simp only [invokeBuiltin]
    exact exceptNT_bindDo (nt_invokeFileMethod ..) fun v => exceptNT_ok
  | dirM m p r droot =>
    simp only [invokeBuiltin]
    exact exceptNT_bindDo (nt_invokeDirMethod ..) fun v => exceptNT_ok

theorem nt_pyAdd (a b : Value) : ExceptNT (pyAdd a b) := by
  unfold pyAdd
  repeat' split
  all_goals first | trivial | rfl

theorem nt_pySub (a b : Value) : ExceptNT (pySub a b) := by
  unfold pySub
  repeat' split
  all_goals first | trivial | rfl

theorem nt_pyMul (a b : Value) : ExceptNT (pyMul a b) := by
  unfold pyMul
  repeat' split
  all_goals first | trivial | rfl

theorem nt_pyDiv (a b : Value) : ExceptNT (pyDiv a b) := by
  unfold pyDiv
  repeat' split
  all_goals first | trivial | rfl

theorem nt_pyMod (a b : Value) : ExceptNT (pyMod a b) := by
  unfold pyMod
  repeat' split
  all_goals first | trivial | rfl

theorem nt_applyBinary (op : String) (a b : Value) :
    ∀ res, applyBinary op a b = some res → ExceptNT res := by
  intro res h
  unfold applyBinary at h
  split at h
  · cases h; exact nt_pyAdd ..
  · split at h
    · cases h; exact nt_pySub ..
    · split at h
      · cases h; exact nt_pyMul ..
      · split at h
        · cases h; exact nt_pyDiv ..
        · split at h
          · cases h; exact nt_pyMod ..
          · simp at h

theorem nt_applyCompare (op : String) (a b : Value) :
    ∀ res, applyCompare op a b = some res → ExceptNT res := by
  intro res h
  unfold applyCompare at h
  split at h
  · cases h; trivial
  · split at h
    · cases h; trivial
    · split at h
      · cases h
        split <;> (first | trivial | rfl)
      · exact absurd h (by simp)

theorem nt_evalPack : ∀ fuel : Nat,
    (∀ ctx e st, (evalExpr fuel ctx e st).ErrSat NTP)
    ∧ (∀ ctx items st, (evalListItems fuel ctx items st).ErrSat NTP)
    ∧ (∀ ctx exprs st, (evalArgs fuel ctx exprs st).ErrSat NTP)
    ∧ (∀ ctx pairs st, (evalKwargs fuel ctx pairs st).ErrSat NTP) := by
  intro fuel
  induction fuel with
  | zero =>
    refine ⟨?_, ?_, ?_, ?_⟩ <;> intro ctx x st <;>
      simp [evalExpr, evalListItems, evalArgs, evalKwargs, EvalRes.ErrSat]
  | succ n ih =>
    obtain ⟨ihE, ihL, ihA, ihK⟩ := ih
    refine ⟨?_, ?_, ?_, ?_⟩
    · intro ctx e st
      cases e with
      | lit v loc => simp [evalExpr, EvalRes.ErrSat]
      | name id loc =>
        simp only [evalExpr]
        repeat' split
        all_goals first | trivial | rfl
      | listLit items loc =>
        simp only [evalExpr]
        refine EvalRes.ErrSat.bindDo (ihL ..) fun a => ?_
        cases a; trivial
      | rangeItem s e loc => simp only [evalExpr]; rfl
      | attr obj aname loc =>
        simp only [evalExpr]
        refine EvalRes.ErrSat.bindDo (ihE ..) fun a => ?_
        obtain ⟨ov, st1⟩ := a
        dsimp only
        split
        · trivial
        · rfl
      | call callee args kwargs loc =>
        simp only [evalExpr]
        refine EvalRes.ErrSat.bindDo (ihE ..) fun a => ?_
        obtain ⟨cv, st1⟩ := a
        dsimp only
        cases cv
        case builtin b =>
          refine EvalRes.ErrSat.bindDo (ihA ..) fun a2 => ?_
          obtain ⟨avs, st2⟩ := a2
          dsimp only
          refine EvalRes.ErrSat.bindDo (ihK ..) fun a3 => ?_
          obtain ⟨kvs, st3⟩ := a3
          dsimp only
          cases hinv : invokeBuiltin ctx b avs kvs st3 with
          | ok p =>
            obtain ⟨v, st4⟩ := p
            trivial
          | error err =>
            have hnt := nt_invokeBuiltin ctx b avs kvs st3
            rw [hinv] at hnt
            cases err with
            | host hh => cases hh <;> rfl
            | dsl m li co sl => exact hnt
            | timeout m el ph => exact hnt
        all_goals rfl
      | unary op operand loc =>
        simp only [evalExpr]
        refine EvalRes.ErrSat.bindDo (ihE ..) fun a => ?_
        obtain ⟨v, st1⟩ := a
        dsimp only
        repeat' split
        all_goals first | trivial | rfl
      | binary op l r loc =>
        simp only [evalExpr]
        split
        · refine EvalRes.ErrSat.bindDo (ihE ..) fun a => ?_
          obtain ⟨lv, st1⟩ := a
          dsimp only
          split
          · refine EvalRes.ErrSat.bindDo (ihE ..) fun a2 => ?_
            cases a2; trivial
          · trivial
        · split
          · refine EvalRes.ErrSat.bindDo (ihE ..) fun a => ?_
            obtain ⟨lv, st1⟩ := a
            dsimp only
            split
            · trivial
            · refine EvalRes.ErrSat.bindDo (ihE ..) fun a2 => ?_
              cases a2; trivial
          · refine EvalRes.ErrSat.bindDo (ihE ..) fun a => ?_
            obtain ⟨lv, st1⟩ := a
            dsimp only
            refine EvalRes.ErrSat.bindDo (ihE ..) fun a2 => ?_
            obtain ⟨rv, st2⟩ := a2
            dsimp only
            cases happ : applyBinary op lv rv with
            | none => rfl
            | some res =>
              cases res with
              | ok v => trivial
              | error err => exact nt_applyBinary op lv rv (.error err) happ
      | compare op l r loc =>
        simp only [evalExpr]
        refine EvalRes.ErrSat.bindDo (ihE ..) fun a => ?_
        obtain ⟨lv, st1⟩ := a
        dsimp only
        refine EvalRes.ErrSat.bindDo (ihE ..) fun a2 => ?_
        obtain ⟨rv, st2⟩ := a2
        dsimp only
        cases happ : applyCompare op lv rv with
        | none => rfl
        | some res =>
          cases res with
          | ok v => trivial
          | error err => exact nt_applyCompare op lv rv (.error err) happ
    · intro ctx items st
      cases items with
      | nil => simp [evalListItems, EvalRes.ErrSat]
      | cons item rest =>
        cases item
        case rangeItem s e loc =>
          simp only [evalListItems]
          refine EvalRes.ErrSat.bindDo (ihE ..) fun a => ?_
          obtain ⟨sv, st1⟩ := a
          dsimp only
          refine EvalRes.ErrSat.bindDo (ihE ..) fun a2 => ?_
          obtain ⟨ev, st2⟩ := a2
          dsimp only
          split
          · refine EvalRes.ErrSat.bindDo (ihL ..) fun a3 => ?_
            cases a3; trivial
          · rfl
        all_goals
          simp only [evalListItems]
          refine EvalRes.ErrSat.bindDo (ihE ..) fun a => ?_
          obtain ⟨v, st1⟩ := a
          dsimp only
          refine EvalRes.ErrSat.bindDo (ihL ..) fun a2 => ?_
          cases a2; trivial
    · intro ctx exprs st
      cases exprs with
      | nil => simp [evalArgs, EvalRes.ErrSat]
      | cons e rest =>
        simp only [evalArgs]
        refine EvalRes.ErrSat.bindDo (ihE ..) fun a => ?_
        obtain ⟨v, st1⟩ := a
        dsimp only
        refine EvalRes.ErrSat.bindDo (ihA ..) fun a2 => ?_
        cases a2; trivial
    · intro ctx pairs st
      cases pairs with
      | nil => simp [evalKwargs, EvalRes.ErrSat]
      | cons kv rest =>
        simp only [evalKwargs]
        refine EvalRes.ErrSat.bindDo (ihE ..) fun a => ?_
        obtain ⟨v, st1⟩ := a
        dsimp only
        refine EvalRes.ErrSat.bindDo (ihK ..) fun a2 => ?_
        cases a2; trivial

theorem nt_execPack : ∀ fuel : Nat,
    (∀ ctx stmt st, (execStmt fuel ctx stmt st).ErrSat NTP)
    ∧ (∀ ctx stmt st, (execStmtCore fuel ctx stmt st).ErrSat NTP)
    ∧ (∀ ctx v vals body st, (execForLoop fuel ctx v vals body st).ErrSat NTP)
    ∧ (∀ ctx branches elseBody st,
        (execBranches fuel ctx branches elseBody st).ErrSat NTP)
    ∧ (∀ ctx stmts st, (execStmts fuel ctx stmts st).ErrSat NTP) := by
  intro fuel
  induction fuel with
  | zero =>
    refine ⟨?_, ?_, ?_, ?_, ?_⟩ <;> intros <;>
      simp [execStmt, execStmtCore, execForLoop, execBranches, execStmts,
        EvalRes.ErrSat]
  | succ n ih =>
    obtain ⟨ihS, ihC, ihF, ihB, ihL⟩ := ih
    have ihE := (nt_evalPack n).1
    refine ⟨?_, ?_, ?_, ?_, ?_⟩
    · intro ctx stmt st
      simp only [execStmt]
      cases hce : execStmtCore n ctx stmt st with
      | ok a => trivial
      | nofuel => trivial
      | err e2 =>
        have h2 := ihC ctx stmt st
        rw [hce] at h2
        cases e2 with
        | host hh => cases hh <;> rfl
        | dsl m li co sl => exact h2
        | timeout m el ph => exact h2
    · intro ctx stmt st
      cases stmt with
      | assign name e loc =>
        simp only [execStmtCore]
        refine EvalRes.ErrSat.bindDo (ihE ..) fun a => ?_
        cases a; trivial
      | exprStmt e loc =>
        simp only [execStmtCore]
        refine EvalRes.ErrSat.bindDo (ihE ..) fun a => ?_
        cases a; trivial
      | forStmt varName iter body loc =>
        simp only [execStmtCore]
        refine EvalRes.ErrSat.bindDo (ihE ..) fun a => ?_
        obtain ⟨itv, st1⟩ := a
        dsimp only
        split
        · rfl
        · exact ihF ..
      | ifStmt branches elseBody loc =>
        simp only [execStmtCore]
        exact ihB ..
    · intro ctx v vals body st
      cases vals with
      | nil => simp [execForLoop, EvalRes.ErrSat]
      | cons x rest =>
        simp only [execForLoop]
        refine EvalRes.ErrSat.bindDo (ihL ..) fun st2 => ?_
        exact ihF ..
    · intro ctx branches elseBody st
      cases branches with
      | nil =>
        simp only [execBranches]
        split
        · trivial
        · exact ihL ..
      | cons br rest =>
        simp only [execBranches]
        refine EvalRes.ErrSat.bindDo (ihE ..) fun a => ?_
        obtain ⟨cv, st1⟩ := a
        dsimp only
        split
        · exact ihL ..
        · exact ihB ..
    · intro ctx stmts st
      cases stmts with
      | nil => simp [execStmts, EvalRes.ErrSat]
      | cons s rest =>
        simp only [execStmts]
        refine EvalRes.ErrSat.bindDo (ihS ..) fun st1 => ?_
        exact ihL ..

/-- No run of the evaluator can fail with a `DSLTimeoutError`: nothing in
`interpreter.py` or on its call paths ever creates or polls an
`ExecutionBudget`. -/
theorem runScript_never_timeout (fuel : Nat) (ctx : Ctx) (prog : Program)
    (e : RunError) (h : runScript fuel ctx prog = .err e) :
    e.isTimeout = false :=
  EvalRes.errSat_err (P := NTP)
    ((nt_execPack fuel).2.2.2.2 ctx prog.statements ⟨[], ""⟩) h

theorem executeFdsl_never_timeout (fuel : Nat) (ctx : Ctx) (prog : Program)
    (e : RunError) (h : executeFdsl fuel ctx prog = .err e) :
    e.isTimeout = false := by
  unfold executeFdsl at h
  split at h
  · exact absurd h (by simp)
  · rename_i e2 heq
    cases h
    exact runScript_never_timeout fuel ctx prog e heq
  · exact absurd h (by simp)

/-- Boolean view of "this run result is a timeout failure". -/
def isTimeoutRes : EvalRes RunError α → Bool
  | .err e => e.isTimeout
  | _ => false

theorem executeFdsl_isTimeoutRes_false (fuel : Nat) (ctx : Ctx) (prog : Program) :
    isTimeoutRes (executeFdsl fuel ctx prog) = false := by
  cases h : executeFdsl fuel ctx prog with
  | ok a => rfl
  | err e => simpa [isTimeoutRes] using executeFdsl_never_timeout fuel ctx prog e h
  | nofuel => rfl

/-- A completed `_execute_statement` never lets a raw host exception
escape: the trailing `except Exception` converts it into a
`DSLRuntimeError`. -/
theorem execStmt_never_host (fuel : Nat) (ctx : Ctx) (stmt : Stmt) (st : St)
    (e : RunError) (h : execStmt fuel ctx stmt st = .err e) :
    e.isHost = false := by
  match fuel with
  | 0 => simp [execStmt] at h
  | n + 1 =>
    simp only [execStmt] at h
    split at h
    · cases h; rfl
    · rename_i hne
      cases hce : execStmtCore n ctx stmt st with
      | ok a => rw [hce] at h; exact absurd h (by simp)
      | nofuel => rw [hce] at h; exact absurd h (by simp)
      | err e2 =>
        rw [hce] at h
        cases h
        cases e with
        | dsl m l c sl => rfl
        | timeout m el ph => rfl
        | host hh => exact absurd (hce.symm.trans (congrArg _ rfl)) (fun _ => hne hh hce)

/-- A host exception raised while evaluating a statement's expression is
converted into a `DSLRuntimeError` carrying that statement's line, column
and source line (`_runtime_error(str(exc), stmt.loc)`), for both statement
shapes whose whole work is one expression evaluation. -/
theorem execStmt_converts_host (fuel : Nat) (ctx : Ctx) (e0 : Expr)
    (loc : SourceLoc) (st : St) (m : HostExc) (vn : String)
    (h : evalExpr fuel ctx e0 st = .err (.host m)) :
    execStmt (fuel + 2) ctx (.exprStmt e0 loc) st
        = .err (runtimeErrorAt ctx m.msg loc)
    ∧ execStmt (fuel + 2) ctx (.assign vn e0 loc) st
        = .err (runtimeErrorAt ctx m.msg loc) := by
  constructor <;>
    simp [execStmt, execStmtCore, h, Bind.bind, EvalRes.bind, Stmt.loc]


/-! ## Characterization of `read(pages)` (for the page-selection claim) -/

theorem normalizePagesLoop_ok (fs : FileSystem) (fn : String) (total : Nat)
    (pages : List Int) (acc : List Int)
    (h : ∀ q ∈ pages, 1 ≤ q ∧ q ≤ (total : Int)) :
    normalizePagesLoop fs fn total (pages.map (.int)) acc
      = .ok (acc ++ firstOccurrencesFrom acc pages) := by
  induction pages generalizing acc with
  | nil => simp [normalizePagesLoop, firstOccurrencesFrom]
  | cons p t ih =>
    obtain ⟨hp1, hp2⟩ := h p (List.mem_cons_self p t)
    have hrange : ¬(p < 1 || p > (total : Int)) = true := by
      simp only [Bool.or_eq_true, decide_eq_true_eq, not_or, not_lt]
      omega
    simp only [List.map_cons, normalizePagesLoop, asPyInt, hrange, if_false,
      Bool.false_eq_true]
    by_cases hmem : p ∈ acc
    · have hcont : acc.contains p = true := List.elem_eq_true_of_mem hmem
      simp only [hcont, if_true, firstOccurrencesFrom, hmem, if_pos]
      exact ih acc (fun q hq => h q (List.mem_cons_of_mem p hq))
    · have hcont : acc.contains p = false := by
        simpa using fun hc => hmem (List.mem_of_elem_eq_true hc)
      simp only [hcont, firstOccurrencesFrom, hmem, if_neg, if_false,
        Bool.false_eq_true, not_false_iff]
      rw [ih (acc ++ [p]) (fun q hq => h q (List.mem_cons_of_mem p hq))]
      simp [List.append_assoc]

def isOkE : Except ε α → Bool
  | .ok _ => true
  | .error _ => false

theorem normalizePagesLoop_err (fs : FileSystem) (fn : String) (total : Nat)
    (pages : List Int) (acc : List Int)
    (h : ∃ q ∈ pages, q < 1 ∨ (total : Int) < q) :
    isOkE (normalizePagesLoop fs fn total (pages.map (.int)) acc) = false := by
  induction pages generalizing acc with
  | nil => simp at h
  | cons p t ih =>
    by_cases hbad : (p < 1 || p > (total : Int)) = true
    · simp [normalizePagesLoop, asPyInt, hbad, isOkE]
    · have hp : ¬(p < 1 ∨ (total : Int) < p) := by
        simp only [Bool.or_eq_true, decide_eq_true_eq, not_or, not_lt] at hbad
        omega
      obtain ⟨q, hq, hqbad⟩ := h
      rcases List.mem_cons.mp hq with heq | hqt
      · exact absurd (heq ▸ hqbad) hp
      · simp only [List.map_cons, normalizePagesLoop, asPyInt, hbad, if_false,
          Bool.false_eq_true]
        split <;> exact ih _ ⟨q, hqt, hqbad⟩

/-! ## Characterization of the semantic-search scored list (ordering claim) -/

theorem positionsFor_pages_sorted (records : List SemRecord) (rel : String) :
    (positionsFor records rel).Pairwise (fun a b => a.2 ≤ b.2) := by
  have h := pySortBy_sorted (α := Nat × Int) (fun a b => decide (a.2 ≤ b.2))
    (by intro a b hab; simp only [decide_eq_false_iff_not, not_le] at hab
        simp only [decide_eq_true_eq]; omega)
    (by intro a b c hab hbc
        simp only [decide_eq_true_eq] at hab hbc ⊢; omega)
    (records.enum.filterMap fun ir =>
      match ir.2.page with
      | some pg => if ir.2.relative_path == rel then some (ir.1, pg) else none
      | none => none)
  refine List.Pairwise.imp ?_ h
  intro a b hab
  simpa using hab

theorem scoredPages_pages_sorted (vectors : List (List ℚ)) (qv : List ℚ)
    (records : List SemRecord) (rel : String) :
    (scoredPages vectors qv (positionsFor records rel)).Pairwise
      (fun a b => a.2 ≤ b.2) := by
  refine pairwise_filterMap_of_pairwise _ ?_ (positionsFor_pages_sorted records rel)
  intro a b x y hab hxa hyb
  split at hxa
  · cases hxa
    split at hyb
    · cases hyb; exact hab
    · cases hyb
  · cases hxa

theorem mem_positionsFor {records : List SemRecord} {rel : String}
    {vp : Nat × Int} (h : vp ∈ positionsFor records rel) :
    ∃ r, records.get? vp.1 = some r ∧ r.relative_path = rel ∧ r.page = some vp.2 := by
  have h2 := (pySortBy_perm _ _).subset h
  rcases List.mem_filterMap.mp h2 with ⟨ir, hmem, hf⟩
  rcases hpg : ir.2.page with _ | pg
  · rw [hpg] at hf; cases hf
  · rw [hpg] at hf
    dsimp only at hf
    by_cases hrel : (ir.2.relative_path == rel) = true
    · rw [if_pos hrel] at hf
      cases hf
      refine ⟨ir.2, ?_, ?_, hpg⟩
      · have := List.mem_enum_iff_getElem?.mp hmem
        rw [List.get?_eq_getElem?]
        exact this
      · exact eq_of_beq hrel
    · rw [if_neg hrel] at hf; cases hf

theorem mem_scoredPages {vectors : List (List ℚ)} {qv : List ℚ}
    {records : List SemRecord} {rel : String} {pr : ℚ × Int}
    (h : pr ∈ scoredPages vectors qv (positionsFor records rel)) :
    ∃ i r, records.get? i = some r ∧ r.relative_path = rel ∧ r.page = some pr.2 := by
  rcases List.mem_filterMap.mp h with ⟨vp, hmem, hf⟩
  split at hf
  · cases hf
    rcases mem_positionsFor hmem with ⟨r, hr1, hr2, hr3⟩
    exact ⟨vp.1, r, hr1, hr2, hr3⟩
  · cases hf


/-! ## Ancestor structure of `_find_indexed_root`'s candidate chain -/

theorem parentsAux_ancestor : ∀ (n : Nat) (q c : FPath), c ∈ parentsAux n q → c <+: q := by
  intro n
  induction n with
  | zero => intro q c h; simp [parentsAux] at h
  | succ m ih =>
    intro q c h
    match q with
    | [] => simp [parentsAux] at h
    | x :: xs =>
      rcases List.mem_cons.mp (by simpa [parentsAux] using h) with heq | hrec
      · rw [heq]; exact List.dropLast_prefix _
      · exact (ih _ c hrec).trans (List.dropLast_prefix _)

theorem mem_candidatesFor_ancestor {p c : FPath} (h : c ∈ candidatesFor p) :
    c <+: p := by
  rcases List.mem_cons.mp h with heq | h2
  · rw [heq]
  · rcases List.mem_cons.mp h2 with heq2 | h3
    · rw [heq2]; exact List.dropLast_prefix _
    · exact parentsAux_ancestor p.length p c h3

theorem firstIndexedCandidate_mem {fs : FileSystem} :
    ∀ {l : List FPath} {c : FPath}, firstIndexedCandidate fs l = some c →
      c ∈ l ∧ fs.isDir (c ++ [SEMANTIC_DB_DIRNAME]) = true := by
  intro l
  induction l with
  | nil => intro c h; simp [firstIndexedCandidate] at h
  | cons x rest ih =>
    intro c h
    unfold firstIndexedCandidate at h
    split at h
    · cases h
      rename_i hdir
      exact ⟨List.mem_cons_self x rest, hdir⟩
    · obtain ⟨hmem, hdir⟩ := ih h
      exact ⟨List.mem_cons_of_mem x hmem, hdir⟩

/-! ## Fixtures for concrete runs (witnesses and counterexamples) -/

/-- A filesystem with nothing on it (host facilities inert). -/
def emptyFs : FileSystem :=
  { isDir := fun _ => false, isFile := fun _ => false, pathExists := fun _ => false,
    resolve := id, filesUnder := fun _ => [], filesDirectlyUnder := fun _ => [],
    dbRecords := fun _ => [], dbVectors := fun _ => [],
    chunksOnDisk := fun _ => .error (.dsl ("missing file")),
    pagesForIndex := fun _ => [] }

def nilRegex : RegexEngine := ⟨fun _ _ => .ok (fun _ => false)⟩

def nilHooks : HostHooks :=
  ⟨fun _ _ _ => .error (.dsl ("table out of model")),
   fun _ _ _ _ _ => .error (.dsl ("snippets out of model")),
   fun _ _ _ _ _ => .error (.dsl ("tree out of model"))⟩

/-- A context over a given filesystem, with cwd, sandbox root and process
cwd all at the filesystem root. -/
def mkCtx (fs : FileSystem) (lines : List String) : Ctx :=
  { fs := fs, re := nilRegex, hooks := nilHooks, pyHash := fun _ => 0,
    cwd := [], sandboxRoot := [], processCwd := [], sourceLines := lines }

def ctx0 (lines : List String) : Ctx := mkCtx emptyFs lines

/-! ## Claim C1 -/

/-- Filesystem for the C1 run: `a.txt` exists at the sandbox root, so the
claim's premise (path resolves inside the sandbox and exists on disk)
holds and the failure is attributable only to the missing builtin. -/
def c1Fs : FileSystem :=
  { emptyFs with
    isFile := fun p => p == ["a.txt"],
    pathExists := fun p => p == ["a.txt"],
    chunksOnDisk := fun p =>
      if p == ["a.txt"] then .ok (["alpha\nbeta\ngamma"]) else .error (.dsl ("missing file")) }

def c1SrcLine : String := "f = File(\"a.txt\")"

def c1Prog : Program :=
  ⟨[.assign ("f")
      (.call (.name ("File") ⟨1, 5⟩) [.lit (.strL ("a.txt")) ⟨1, 10⟩] [] ⟨1, 9⟩)
      ⟨1, 1⟩]⟩

/-- Claim C1 (code bug): the evaluator's builtin table
(`Interpreter.__init__`, interpreter.py lines 43–47) seeds `Directory`,
`print` and `len` but not `File`, so evaluating `File("a.txt")` — even for
a file that exists inside the sandbox — fails with
`Undefined variable 'File'` instead of constructing a file object.  The
repository's own tests (`tests/test_dsl.py::test_file_builtin_direct_access`,
`tests/test_prepare_faiss.py`) and `fdsl_execution_test.py` require the
`File` builtin, so the code contradicts its own test suite. -/
theorem claim_C1_file_builtin_missing :
    envGet builtinsTable ("Directory") = some (.builtin .bDirectory)
    ∧ envGet builtinsTable ("print") = some (.builtin .bPrint)
    ∧ envGet builtinsTable ("len") = some (.builtin .bLen)
    ∧ envGet builtinsTable ("File") = none
    ∧ runScript 10 (mkCtx c1Fs [c1SrcLine]) c1Prog
        = .err (.dsl ("Undefined variable " ++ quoted ("File"))
            (some 1) (some 5) (some c1SrcLine)) :=
  ⟨rfl, rfl, rfl, rfl, rfl⟩

/-! ## Claim C2 -/

/-- The S6 script of the specification,
`for i in [1:1000000000]:` / `    x = i`, as an AST. -/
def c2LoopProg : Program :=
  ⟨[.forStmt ("i")
      (.listLit
        [.rangeItem (.lit (.intL 1) ⟨1, 11⟩) (.lit (.intL 1000000000) ⟨1, 13⟩) ⟨1, 12⟩]
        ⟨1, 10⟩)
      [.assign ("x") (.name ("i") ⟨2, 9⟩) ⟨2, 5⟩]
      ⟨1, 1⟩]⟩

/-- Claim C2 counterexample: running the claim's own long-loop script
through `execute_fdsl` can never produce a timeout failure — under any
recursion budget — because `execute_fdsl` takes no timeout argument and
the evaluator never creates or polls an `ExecutionBudget`.  (The general
fact `executeFdsl_isTimeoutRes_false` is instantiated at the claim's
concrete script.) -/
theorem claim_C2_counterexample :
    isTimeoutRes (executeFdsl 1000000 (ctx0 ["for i in [1:1000000000]:", "    x = i"])
      c2LoopProg) = false :=
  executeFdsl_isTimeoutRes_false 1000000
    (ctx0 ["for i in [1:1000000000]:", "    x = i"]) c2LoopProg

/-- Claim C2 (amended): `execute_fdsl` accepts no timeout argument and no
budget reaches the evaluator, so no script execution ever fails with a
timeout; the timeout machinery exists only in `ExecutionBudget.check`
(used by the semantic-index paths when a budget is supplied), which — once
the monotonic clock passes the deadline — raises a timeout failure
carrying the elapsed seconds and the phase string. -/
theorem claim_C2_amended :
    (∀ (fuel : Nat) (ctx : Ctx) (prog : Program),
      isTimeoutRes (executeFdsl fuel ctx prog) = false)
    ∧ (∀ (b : ExecutionBudget) (now : ℚ) (phase : String) (d : ℚ),
        b.deadlineMonotonic = some d → d < now →
        b.check now phase
          = .error (.timeout (timeoutMessage (now - b.startMonotonic) phase)
              (now - b.startMonotonic) phase)) := by
  constructor
  · exact fun fuel ctx prog => executeFdsl_isTimeoutRes_false fuel ctx prog
  · intro b now phase d hd hlt
    unfold ExecutionBudget.check
    rw [hd]
    dsimp only
    rw [if_neg (by exact not_le.mpr hlt)]

theorem claim_C2_witness :
    isTimeoutRes (executeFdsl 10 (ctx0 []) ⟨[]⟩) = false
    ∧ ExecutionBudget.check ⟨0, some 0⟩ 1 ("semantic.prepare.file")
        = .error (.timeout (timeoutMessage 1 ("semantic.prepare.file")) 1
            ("semantic.prepare.file")) := by
  refine ⟨claim_C2_amended.1 10 (ctx0 []) ⟨[]⟩, ?_⟩
  have h := claim_C2_amended.2 ⟨0, some 0⟩ 1 ("semantic.prepare.file") 0 rfl
    (by norm_num)
  simpa using h

/-! ## Claim C3 -/

/-- Claim C3 counterexample: the `BinaryOp` arm evaluates `left / right`
with the host's true division, so `7 / 2` is the float `3.5` (not the
integer `3` that truncated integer division would give), and `*` performs
no integer-only check: `"ab" * 3` succeeds with `"ababab"` instead of
raising a runtime error. -/
theorem claim_C3_counterexample :
    applyBinary ("/") (.int 7) (.int 2) = some (.ok (.float (7 / 2)))
    ∧ (Value.float (7 / 2) = Value.int 3 → False)
    ∧ applyBinary ("*") (.str ("ab")) (.int 3) = some (.ok (.str ("ababab"))) :=
  ⟨rfl, fun h => Value.noConfusion h, rfl⟩

/-- Claim C3 (amended): on integer operands with a nonzero divisor, the
DSL's `/` performs Python 3 true division and yields a float equal to the
exact quotient (floats modelled as exact rationals); and the operators
`-`, `*`, `/`, `%` are not integer-only — they carry the host's dynamic
semantics, e.g. `*` of a string and an integer repeats the string. -/
theorem claim_C3_amended :
    (∀ a b : Int, b ≠ 0 →
      applyBinary ("/") (.int a) (.int b) = some (.ok (.float ((a : ℚ) / b))))
    ∧ (∀ (s : String) (n : Int),
      applyBinary ("*") (.str s) (.int n) = some (.ok (.str (strRepeat s n)))) := by
  constructor
  · intro a b hb
    have hzero : ((b : ℚ) == 0) = false := by
      simp only [beq_eq_false_iff_ne, ne_eq, Rat.intCast_eq_zero]
      exact hb
    simp [applyBinary, pyDiv, asNumQ, hzero]
  · intro s n
    simp [applyBinary, pyMul, asPyInt, asNumQ]

theorem claim_C3_witness :
    (2 : Int) ≠ 0
    ∧ applyBinary ("/") (.int 7) (.int 2) = some (.ok (.float ((7 : ℚ) / 2)))
    ∧ applyBinary ("*") (.str ("ab")) (.int 3) = some (.ok (.str (strRepeat ("ab") 3))) :=
  ⟨by decide, claim_C3_amended.1 7 2 (by decide), claim_C3_amended.2 ("ab") 3⟩

/-! ## Claim C4 -/

def printBoolProg (b : Bool) : Program :=
  ⟨[.exprStmt
      (.call (.name ("print") ⟨1, 1⟩) [.lit (.boolL b) ⟨1, 7⟩] [] ⟨1, 6⟩)
      ⟨1, 1⟩]⟩

/-- Claim C4 counterexample: `print` renders values with the host's
`str`, so `print(true)` writes capitalized `True`, not the lowercase
`true` the claim requires (hence the S1 transcript `1\ntrue\n[1]\n` is
unachievable as well). -/
theorem claim_C4_counterexample :
    executeFdsl 10 (ctx0 ["print(true)"]) (printBoolProg true) = .ok ("True\n")
    ∧ ("True\n" = "true\n" → False) :=
  ⟨rfl, by decide⟩

/-- Claim C4 (amended): for every boolean value, `print(v)` writes the
host capitalization `True`/`False` followed by a newline to the captured
output (so the S1 script's second line would read `True`; S1 as written
additionally fails earlier because `File` is not seeded, claim C1). -/
theorem claim_C4_amended :
    ∀ b : Bool,
      executeFdsl 10 (ctx0 []) (printBoolProg b)
          = .ok ((if b then "True" else "False") ++ "\n")
      ∧ pyStr emptyFs (.bool b) = (if b then "True" else "False") := by
  intro b
  cases b <;> exact ⟨rfl, rfl⟩

/-! ## Claim C5 -/

/-- Filesystem for the C5 preparation run: a folder `/data` containing a
single text file `notes.txt` with one extracted page. -/
def c5Fs : FileSystem :=
  { emptyFs with
    isDir := fun p => p == ["data"],
    pathExists := fun p => p == ["data"] || p == ["data", "notes.txt"],
    isFile := fun p => p == ["data", "notes.txt"],
    filesUnder := fun p => if p == ["data"] then [["data", "notes.txt"]] else [],
    pagesForIndex := fun p => if p == ["data", "notes.txt"] then ["alpha"] else [] }

/-- Filesystem that carries an index directory named `.fdsl_index` (the
name the specification uses): the code's lookups do not find it. -/
def c5SpecNameFs : FileSystem :=
  { emptyFs with
    isDir := fun p => p == ["data"] || p == ["data", ".fdsl_index"],
    pathExists := fun p => p == ["data"] || p == ["data", ".fdsl_index"] }

/-- Claim C5 counterexample: the index subdirectory constant is
`.fdsl_faiss`, not `.fdsl_index`; preparing `/data` creates the index
under `/data/.fdsl_faiss`; and a lookup below a folder whose only index
directory is named `.fdsl_index` fails to locate any index. -/
theorem claim_C5_counterexample :
    SEMANTIC_DB_DIRNAME = ".fdsl_faiss"
    ∧ (SEMANTIC_DB_DIRNAME = ".fdsl_index" → False)
    ∧ (prepareSemanticDatabase c5Fs (fun _ => 0) (["data"])).map
        (fun r => r.1.db_path) = .ok (["data", ".fdsl_faiss"])
    ∧ findIndexedRoot c5SpecNameFs (["data", "x.txt"]) []
        = .error (dslMsg (noIndexMsg (relPath (["data", "x.txt"]) []))) :=
  ⟨rfl, by decide, rfl, rfl⟩

/-- Claim C5 (amended): preparing a semantic index for a folder creates
the on-disk index under the subdirectory named `.fdsl_faiss` at the
indexed folder root — writing exactly the records file `records.json`,
the vectors file `vectors.json` and the marker file `pages.faiss` there —
and every index lookup (`get_file_pages_from_database`,
`get_directory_file_paths_from_database`, `semantic_search_file_pages`,
all via `_find_indexed_root`) locates a prepared index by walking the
candidate chain `[path, path.parent, *path.parents]` and returning the
first ancestor that contains a subdirectory of that same name. -/
theorem claim_C5_amended :
    (∀ (fs : FileSystem) (h : String → Nat) (folder : FPath)
        (stats : PrepareStats) (writes : List (FPath × String)),
      prepareSemanticDatabase fs h folder = .ok (stats, writes) →
        stats.db_path = fs.resolve folder ++ [SEMANTIC_DB_DIRNAME]
        ∧ writes.map (·.1) =
            [stats.db_path ++ [SEMANTIC_RECORDS_FILENAME],
             stats.db_path ++ [SEMANTIC_VECTORS_FILENAME],
             stats.db_path ++ [SEMANTIC_INDEX_FILENAME]])
    ∧ (∀ (fs : FileSystem) (p droot root : FPath),
        findIndexedRoot fs p droot = .ok root →
          root <+: p ∧ fs.isDir (root ++ [SEMANTIC_DB_DIRNAME]) = true) := by
  constructor
  · intro fs h folder stats writes hprep
    unfold prepareSemanticDatabase at hprep
    dsimp only at hprep
    split at hprep
    · exact absurd hprep (by simp)
    · split at hprep
      · exact absurd hprep (by simp)
      · rw [Except.ok.injEq, Prod.mk.injEq] at hprep
        obtain ⟨h1, h2⟩ := hprep
        constructor
        · rw [← h1]
        · rw [← h1, ← h2]
          rfl
  · intro fs p droot root hroot
    unfold findIndexedRoot at hroot
    cases hfirst : firstIndexedCandidate fs (candidatesFor p) with
    | none => rw [hfirst] at hroot; exact absurd hroot (by simp)
    | some c =>
      rw [hfirst] at hroot
      cases hroot
      obtain ⟨hmem, hdir⟩ := firstIndexedCandidate_mem hfirst
      exact ⟨mem_candidatesFor_ancestor hmem, hdir⟩

def c5Records : List SemRecord := [⟨"notes.txt", "notes.txt", some 1, "alpha"⟩]

def c5Inputs : List String := ["File: notes.txt\nalpha"]

def c5Stats : PrepareStats := ⟨["data"], ["data", ".fdsl_faiss"], 1, 1⟩

/-- Filesystem state after the C5 preparation: the index directory
exists. -/
def c5PreparedFs : FileSystem :=
  { c5Fs with
    isDir := fun p => p == ["data"] || p == ["data", ".fdsl_faiss"] }

theorem claim_C5_witness :
    c5Stats.db_path = ["data"] ++ [SEMANTIC_DB_DIRNAME]
    ∧ (writeFaissDatabase (fun _ => 0) (["data", ".fdsl_faiss"]) c5Records c5Inputs).map (·.1)
        = [c5Stats.db_path ++ [SEMANTIC_RECORDS_FILENAME],
           c5Stats.db_path ++ [SEMANTIC_VECTORS_FILENAME],
           c5Stats.db_path ++ [SEMANTIC_INDEX_FILENAME]]
    ∧ (["data"] <+: ["data", "notes.txt"]
        ∧ c5PreparedFs.isDir (["data"] ++ [SEMANTIC_DB_DIRNAME]) = true) := by
  have hprep : prepareSemanticDatabase c5Fs (fun _ => 0) (["data"])
      = .ok (c5Stats, writeFaissDatabase (fun _ => 0) (["data", ".fdsl_faiss"])
          c5Records c5Inputs) := by
    rfl
  have h1 := (claim_C5_amended.1 c5Fs (fun _ => 0) (["data"]) c5Stats _ hprep)
  have h2 := claim_C5_amended.2 c5PreparedFs (["data", "notes.txt"]) []
    (["data"]) (by rfl)
  exact ⟨h1.1, h1.2, h2⟩


/-! ## Claim C6 -/

set_option maxRecDepth 100000 in
/-- Claim C6 (code bug): `_encode_texts` hashes tokens with Python's
built-in `hash`, which for strings is salted per interpreter process
(`PYTHONHASHSEED`).  Two processes whose string hashes differ (modelled
here by two explicit hash functions) produce different vectors for the
same input text, so the embedding is not deterministic across runs — yet
the on-disk `vectors.json` is written by one process (`prepare`) and read
back by others (`run`), and the specification demands a fixed seeded
hash.  The second conjunct confirms the vectors are 256-dimensional. -/
theorem claim_C6_encode_hash_salted :
    encodeTexts (fun _ => 0) (["alpha"]) ≠ encodeTexts (fun _ => 1) (["alpha"])
    ∧ (encodeTexts (fun _ => 0) (["alpha"])).map (·.length) = [EMBEDDING_DIM] := by
  constructor
  · intro h
    have h0 : ((encodeTexts (fun _ => 0) (["alpha"])).headD []).getD 0 0 = 1 := by
      with_unfolding_all rfl
    have h1 : ((encodeTexts (fun _ => 1) (["alpha"])).headD []).getD 0 0 = 0 := by
      with_unfolding_all rfl
    rw [h, h1] at h0
    exact absurd h0 (by norm_num)
  · with_unfolding_all rfl

/-! ## Claim C7 -/

/-- The resolved absolute candidate path `_builtin_directory` computes for
a user path string: parsed, joined to the interpreter `cwd` when relative,
then `resolve()`d. -/
def resolvedCandidate (ctx : Ctx) (s : String) : FPath :=
  let parsed := parsePathStr s
  if parsed.1 then ctx.fs.resolve parsed.2 else ctx.fs.resolve (ctx.cwd ++ parsed.2)

theorem dslDirectoryInit_ok {fs : FileSystem} {path : FPath} {r : Bool}
    {droot : FPath} {v : Value} (h : dslDirectoryInit fs path r droot = .ok v) :
    v = .dir path r droot := by
  unfold dslDirectoryInit at h
  repeat' split at h
  all_goals first
    | (cases h; rfl)
    | exact absurd h (by simp)

theorem builtinDirectory_eq (ctx : Ctx) (s : String) (r : Bool) :
    builtinDirectory ctx (.str s) (.bool r)
      = if ctx.sandboxRoot.isPrefixOf (resolvedCandidate ctx s) then
          dslDirectoryInit ctx.fs (resolvedCandidate ctx s) r ctx.processCwd
        else
          .error (dslMsg (accessDeniedMsg (resolvedCandidate ctx s) ctx.sandboxRoot)) := by
  unfold builtinDirectory resolvedCandidate
  dsimp only
  cases hpre : ctx.sandboxRoot.isPrefixOf
      (if (parsePathStr s).1 then ctx.fs.resolve (parsePathStr s).2
       else ctx.fs.resolve (ctx.cwd ++ (parsePathStr s).2)) <;>
    simp [hpre]

/-- Claim C7 (confirmed): for every path string, if `Directory(q)` under
sandbox root `R` returns a directory object then the object's resolved
absolute path lies inside `R` (`R` is a component-prefix of it) and equals
the resolved candidate; and whenever the resolved candidate lies outside
`R`, the call fails with the `Access denied.` runtime error whose message
textually contains both the offending resolved path and the root. -/
theorem claim_C7_sandbox_containment :
    ∀ (ctx : Ctx) (s : String) (r : Bool),
      (∀ (p : FPath) (rec : Bool) (droot : FPath),
        builtinDirectory ctx (.str s) (.bool r) = .ok (.dir p rec droot) →
          ctx.sandboxRoot <+: p ∧ p = resolvedCandidate ctx s)
      ∧ (ctx.sandboxRoot.isPrefixOf (resolvedCandidate ctx s) = false →
          builtinDirectory ctx (.str s) (.bool r)
            = .error (dslMsg (accessDeniedMsg (resolvedCandidate ctx s) ctx.sandboxRoot)))
      ∧ (renderPosix (resolvedCandidate ctx s)).data
          <:+: (accessDeniedMsg (resolvedCandidate ctx s) ctx.sandboxRoot).data
      ∧ (renderPosix ctx.sandboxRoot).data
          <:+: (accessDeniedMsg (resolvedCandidate ctx s) ctx.sandboxRoot).data := by
  intro ctx s r
  refine ⟨?_, ?_, ?_, ?_⟩
  · intro p rec droot h
    rw [builtinDirectory_eq] at h
    split at h
    · rename_i hpre
      have hcand := dslDirectoryInit_ok h
      rw [Value.dir.injEq] at hcand
      obtain ⟨hp, -, -⟩ := hcand
      refine ⟨?_, hp⟩
      rw [hp]
      exact List.isPrefixOf_iff_prefix.mp hpre
    · exact absurd h (by simp)
  · intro hpre
    rw [builtinDirectory_eq,
      if_neg (show ¬ ctx.sandboxRoot.isPrefixOf (resolvedCandidate ctx s) = true
        from by simp [hpre])]
  · refine ⟨("Access denied. " ++ sq).data,
      (sq ++ " is outside sandbox root " ++
        quoted (renderPosix ctx.sandboxRoot)).data, ?_⟩
    show _ = (accessDeniedMsg (resolvedCandidate ctx s) ctx.sandboxRoot).data
    simp only [accessDeniedMsg, quoted, ← String.data_append, String.append_assoc]
  · refine ⟨("Access denied. " ++ quoted (renderPosix (resolvedCandidate ctx s)) ++
      " is outside sandbox root " ++ sq).data, (sq).data, ?_⟩
    show _ = (accessDeniedMsg (resolvedCandidate ctx s) ctx.sandboxRoot).data
    simp only [accessDeniedMsg, quoted, ← String.data_append, String.append_assoc]

/-- Filesystem for the C7 witness: sandbox root `/tmp/box` containing a
subdirectory `docs` (the S4 scenario of the specification plus a
successful construction). -/
def c7Fs : FileSystem :=
  { emptyFs with
    isDir := fun p => p == ["tmp", "box"] || p == ["tmp", "box", "docs"],
    pathExists := fun p => p == ["tmp", "box"] || p == ["tmp", "box", "docs"] }

def c7Ctx : Ctx :=
  { fs := c7Fs, re := nilRegex, hooks := nilHooks, pyHash := fun _ => 0,
    cwd := ["tmp", "box"], sandboxRoot := ["tmp", "box"],
    processCwd := ["tmp", "box"], sourceLines := [] }

theorem claim_C7_witness :
    builtinDirectory c7Ctx (.str ("/")) (.bool true)
        = .error (dslMsg (accessDeniedMsg [] (["tmp", "box"])))
    ∧ (["tmp", "box"] <+: ["tmp", "box", "docs"]
        ∧ (["tmp", "box", "docs"] : FPath) = resolvedCandidate c7Ctx ("docs")) := by
  constructor
  · exact (claim_C7_sandbox_containment c7Ctx ("/") true).2.1 (by rfl)
  · exact (claim_C7_sandbox_containment c7Ctx ("docs") true).1
      (["tmp", "box", "docs"]) true (["tmp", "box"]) (by rfl)

/-! ## Claim C8 -/

/-- Claim C8 (confirmed): for a file materializing to `chunks` (so `N =
chunks.length` pages) and a pages argument that is a list of integers (or
a single integer): when all requested page numbers lie in `1..N`,
`read(pages)` returns the page strings in the order the page numbers were
given with duplicates dropped keeping the first occurrence; and whenever
some requested page number is `< 1` or `> N`, the call fails with a
runtime error instead of returning. -/
theorem claim_C8_read_pages :
    ∀ (fs : FileSystem) (p droot : FPath) (chunks : List String)
      (pages : List Int),
      fileChunks fs p droot = .ok chunks →
      ((∀ q ∈ pages, 1 ≤ q ∧ q ≤ (chunks.length : Int)) →
          dslFileRead fs p droot (.list (pages.map (.int)))
            = .ok (.list ((firstOccurrences pages).map
                fun q => .str (chunks.getD (q - 1).toNat ("")))))
      ∧ (∀ n : Int, 1 ≤ n → n ≤ (chunks.length : Int) →
          dslFileRead fs p droot (.int n)
            = .ok (.list [.str (chunks.getD (n - 1).toNat (""))]))
      ∧ ((∃ q ∈ pages, q < 1 ∨ (chunks.length : Int) < q) →
          isOkE (dslFileRead fs p droot (.list (pages.map (.int)))) = false) := by
  intro fs p droot chunks pages hch
  refine ⟨?_, ?_, ?_⟩
  · intro hall
    unfold dslFileRead
    rw [hch]
    show (normalizePagesLoop fs (fileNameOf p) chunks.length
        (pages.map (.int)) []).bind _ = _
    rw [normalizePagesLoop_ok fs (fileNameOf p) chunks.length pages [] hall]
    simp [firstOccurrences, Except.bind]
  · intro n h1 h2
    unfold dslFileRead
    rw [hch]
    show (normalizePagesLoop fs (fileNameOf p) chunks.length
        ([n].map (.int)) []).bind _ = _
    rw [normalizePagesLoop_ok fs (fileNameOf p) chunks.length [n] []
      (by intro q hq; rw [List.mem_singleton.mp hq]; exact ⟨h1, h2⟩)]
    simp [firstOccurrencesFrom, Except.bind]
  · intro hbad
    unfold dslFileRead
    rw [hch]
    show isOkE ((normalizePagesLoop fs (fileNameOf p) chunks.length
        (pages.map (.int)) []).bind _) = false
    have herr := normalizePagesLoop_err fs (fileNameOf p) chunks.length pages [] hbad
    cases heq : normalizePagesLoop fs (fileNameOf p) chunks.length
        (pages.map (.int)) [] with
    | ok sel => rw [heq] at herr; simp [isOkE] at herr
    | error e => simp [heq, isOkE, Except.bind]

def c8Fs : FileSystem :=
  { emptyFs with
    isFile := fun p => p == ["a.txt"],
    pathExists := fun p => p == ["a.txt"],
    chunksOnDisk := fun p =>
      if p == ["a.txt"] then .ok (["pageA", "pageB", "pageC"])
      else .error (.dsl ("missing file")) }

theorem claim_C8_witness :
    dslFileRead c8Fs (["a.txt"]) [] (.list [.int 2, .int 1, .int 2])
        = .ok (.list [.str ("pageB"), .str ("pageA")])
    ∧ dslFileRead c8Fs (["a.txt"]) [] (.int 2) = .ok (.list [.str ("pageB")])
    ∧ isOkE (dslFileRead c8Fs (["a.txt"]) [] (.list [.int 4])) = false := by
  have h1 := claim_C8_read_pages c8Fs (["a.txt"]) [] (["pageA", "pageB", "pageC"])
    ([2, 1, 2]) (by rfl)
  have h2 := claim_C8_read_pages c8Fs (["a.txt"]) [] (["pageA", "pageB", "pageC"])
    ([4]) (by rfl)
  refine ⟨?_, ?_, ?_⟩
  · exact (h1.1 (by decide)).trans (by rfl)
  · exact (h1.2.1 2 (by decide) (by decide)).trans (by rfl)
  · exact h2.2.2 ⟨4, by decide, by decide⟩

/-! ## Claim C9 -/

/-- The scored `(inner product, page)` list `semantic_search_file_pages`
builds for a file resolving under indexed root `root`: one entry per
record whose relative path matches the file and whose vector index is in
range, in page-ascending order. -/
def ssScored (fs : FileSystem) (h : String → Nat) (filePath : FPath)
    (query : String) (root : FPath) : List (ℚ × Int) :=
  scoredPages (fs.dbVectors (root ++ [SEMANTIC_DB_DIRNAME]))
    ((encodeTexts h [pyStrip query]).headD [])
    (positionsFor (fs.dbRecords (root ++ [SEMANTIC_DB_DIRNAME]))
      (relTo (fs.resolve filePath) root))

/-- Claim C9 (confirmed): for an indexed file, a nonempty query and
`top_k ≥ 1`, `semantic_search_file_pages` scores exactly the records
whose relative path matches the file (fourth conjunct), stable-sorts them
by inner-product score descending and returns the first `top_k` page
numbers (first conjunct); the sorted list is a permutation of the scored
list (second conjunct) ordered so that scores strictly decrease and
equal-score ties are broken in favor of the lower page number (third
conjunct, `lexGE`). -/
theorem claim_C9_semantic_search_order
    (fs : FileSystem) (h : String → Nat) (filePath : FPath) (query : String)
    (topK : Int) (droot root : FPath)
    (hq : (pyStrip query == "") = false)
    (hk : 1 ≤ topK)
    (hroot : findIndexedRoot fs (fs.resolve filePath) droot = .ok root)
    (hvec : fs.isFile (root ++ [SEMANTIC_DB_DIRNAME] ++ [SEMANTIC_VECTORS_FILENAME]) = true)
    (hrec : fs.isFile (root ++ [SEMANTIC_DB_DIRNAME] ++ [SEMANTIC_RECORDS_FILENAME]) = true) :
    semanticSearchFilePages fs h filePath query topK droot
        = .ok (((pySortBy scoreGE (ssScored fs h filePath query root)).take
            topK.toNat).map (·.2))
    ∧ (pySortBy scoreGE (ssScored fs h filePath query root)).Perm
        (ssScored fs h filePath query root)
    ∧ (pySortBy scoreGE (ssScored fs h filePath query root)).Pairwise lexGE
    ∧ (∀ pr ∈ ssScored fs h filePath query root,
        ∃ i r, (fs.dbRecords (root ++ [SEMANTIC_DB_DIRNAME])).get? i = some r
          ∧ r.relative_path = relTo (fs.resolve filePath) root
          ∧ r.page = some pr.2) := by
  refine ⟨?_, pySortBy_perm .., ?_, ?_⟩
  · unfold semanticSearchFilePages
    rw [hq]
    dsimp only [Bool.false_eq_true, if_false]
    rw [if_neg (show ¬ topK < 1 from by omega)]
    rw [hroot]
    show (loadVectors fs _).bind _ = _
    unfold loadVectors
    rw [if_pos hvec]
    show (loadRecordsList fs _).bind _ = _
    unfold loadRecordsList
    rw [if_pos hrec]
    rfl
  · exact pySortBy_scoreGE_lex
      (scoredPages_pages_sorted (fs.dbVectors (root ++ [SEMANTIC_DB_DIRNAME]))
        ((encodeTexts h [pyStrip query]).headD [])
        (fs.dbRecords (root ++ [SEMANTIC_DB_DIRNAME]))
        (relTo (fs.resolve filePath) root))
  · intro pr hpr
    exact mem_scoredPages hpr

/-- Filesystem for the C9 witness: `/data` carries a prepared index over
one file `doc.txt` with two pages whose stored vectors give the query
equal scores — the tie is broken in favor of page 1. -/
def c9Fs : FileSystem :=
  { emptyFs with
    isDir := fun p => p == ["data"] || p == ["data", ".fdsl_faiss"],
    pathExists := fun p => p == ["data"] || p == ["data", ".fdsl_faiss"],
    isFile := fun p =>
      p == ["data", ".fdsl_faiss", "records.json"] ||
      p == ["data", ".fdsl_faiss", "vectors.json"] ||
      p == ["data", "doc.txt"],
    dbRecords := fun p =>
      if p == ["data", ".fdsl_faiss"] then
        [⟨"doc.txt", "doc.txt", some 1, "alpha"⟩,
         ⟨"doc.txt", "doc.txt", some 2, "alpha"⟩]
      else [],
    dbVectors := fun p =>
      if p == ["data", ".fdsl_faiss"] then [[1], [1]] else [] }

set_option maxRecDepth 100000 in
theorem claim_C9_witness :
    semanticSearchFilePages c9Fs (fun _ => 0) (["data", "doc.txt"]) ("alpha") 2 []
      = .ok ([1, 2]) := by
  have h := claim_C9_semantic_search_order c9Fs (fun _ => 0) (["data", "doc.txt"])
    ("alpha") 2 [] (["data"]) (by rfl) (by omega) (by rfl) (by rfl) (by rfl)
  exact h.1.trans (by with_unfolding_all rfl)

/-! ## Claim C10 -/

/-- Claim C10 (confirmed): every raw host exception (`TypeError`,
`ZeroDivisionError`, …) raised while executing a statement is converted by
`_execute_statement`'s `except Exception` block into a `DSLRuntimeError`
carrying the statement's line, column and source line; a completed
statement execution never surfaces a raw host exception, so
`Interpreter.run` only ever raises the library's own error types. -/
theorem claim_C10_host_exceptions_converted :
    (∀ (fuel : Nat) (ctx : Ctx) (stmt : Stmt) (st : St) (e : RunError),
      execStmt fuel ctx stmt st = .err e → e.isHost = false)
    ∧ (∀ (fuel : Nat) (ctx : Ctx) (e0 : Expr) (loc : SourceLoc) (st : St)
        (m : HostExc) (vn : String),
      evalExpr fuel ctx e0 st = .err (.host m) →
        execStmt (fuel + 2) ctx (.exprStmt e0 loc) st
            = .err (runtimeErrorAt ctx m.msg loc)
        ∧ execStmt (fuel + 2) ctx (.assign vn e0 loc) st
            = .err (runtimeErrorAt ctx m.msg loc)) :=
  ⟨execStmt_never_host,
   fun fuel ctx e0 loc st m vn hh => execStmt_converts_host fuel ctx e0 loc st m vn hh⟩

def c10Cmp : Expr :=
  .compare ("<") (.lit (.intL 1) ⟨1, 1⟩) (.lit (.strL ("a")) ⟨1, 5⟩) ⟨1, 3⟩

def c10Msg : String :=
  quoted ("<") ++ " not supported between instances of " ++
    quoted ("int") ++ " and " ++ quoted ("str")

def c10Ctx : Ctx := ctx0 ["1 < \"a\""]

theorem claim_C10_witness :
    execStmt 7 c10Ctx (.exprStmt c10Cmp ⟨1, 1⟩) ⟨[], ""⟩
        = .err (runtimeErrorAt c10Ctx c10Msg ⟨1, 1⟩)
    ∧ (runtimeErrorAt c10Ctx c10Msg ⟨1, 1⟩).isHost = false := by
  have hh : evalExpr 5 c10Ctx c10Cmp ⟨[], ""⟩
      = .err (.host (.typeErr c10Msg)) := by rfl
  have h := (claim_C10_host_exceptions_converted.2 5 c10Ctx c10Cmp ⟨1, 1⟩ ⟨[], ""⟩
    (.typeErr c10Msg) ("x") hh).1
  exact ⟨h, claim_C10_host_exceptions_converted.1 7 c10Ctx (.exprStmt c10Cmp ⟨1, 1⟩)
    ⟨[], ""⟩ _ h⟩

end FilesDSL
